import Mathlib

/-!
# ExpenseXpert — transaction query & analytics layer, shallow embedding

This file embeds the transaction query and aggregation layer of the
ExpenseXpert personal-finance backend:

* `server/controllers/transactionController.js` — the HTTP-facing operations
  (`getTransactions`, `getTransaction`, `updateTransaction`,
  `deleteTransaction`, `bulkDeleteTransactions`, `getTransactionSummary`,
  `getCategoryBreakdown`, `getMonthlyTrends`);
* the `Transaction` Mongoose model — the schema fields those operations read,
  and the three aggregation statics (`getUserSummary`, `getCategoryBreakdown`,
  `getMonthlyTrends`).

The Mongo document store is modelled as a `List Transaction`; each operation is
a pure function of the store, the requesting user's id, and its parameters,
returning a response and (for mutations) the new store.  Dates are modelled at
calendar-day granularity (`DateT`); ECMAScript date-string parsing is modelled
by its ISO `YYYY-MM-DD` form (`parseDate`), all other strings behaving as the
unparseable `Invalid Date`.  Mongo `$regex` with option `i` interprets the
user-supplied string as a regular expression; it is modelled by `regexMatchCI`,
an unanchored case-insensitive matcher over a PCRE fragment (literal
characters, the dot, grouping, the quantifiers and the lazy modifier) with a
declared pattern universe (see `parsePattern`).  `containsCI` is the second,
spec-side definition — plain case-insensitive substring containment, the
semantics the spec's words describe — kept to compare the two.  Schema fields
never read by any of these operations
(`paymentMethod`, `tags`, `location`, `receipt`, `isRecurring`,
`recurringDetails`, `currency`, `exchangeRate`, timestamps) are omitted from
the record.
-/

/-- Calendar date at day granularity (the granularity at which the
spec's date-range and month-grouping behaviour is stated). -/
structure DateT where
  year : Int
  month : Nat
  day : Nat
deriving DecidableEq, Repr

/-- Lexicographic order on (year, month, day), as a Bool. -/
def DateT.leB (a b : DateT) : Bool :=
  decide (a.year < b.year ∨ (a.year = b.year ∧
    (a.month < b.month ∨ (a.month = b.month ∧ a.day ≤ b.day))))

/-- Gregorian leap-year test. -/
def isLeapYear (y : Int) : Bool :=
  y % 4 == 0 && (y % 100 != 0 || y % 400 == 0)

/-- Number of days in month `m` (1-based) of year `y`. -/
def daysInMonth (y : Int) (m : Nat) : Nat :=
  if m = 2 then (if isLeapYear y then 29 else 28)
  else if m = 4 ∨ m = 6 ∨ m = 9 ∨ m = 11 then 30
  else 31

/-- Split a character list at every dash, keeping empty segments. -/
def splitDash : List Char → List (List Char)
  | [] => [[]]
  | c :: t =>
    let r := splitDash t
    if c = '-' then [] :: r
    else
      match r with
      | [] => [[c]]
      | h :: t2 => (c :: h) :: t2

/-- Decimal value of a digit list. -/
def digitsToNat (l : List Char) : Nat :=
  l.foldl (fun a c => a * 10 + (c.toNat - 48)) 0

/-- `new Date(s)` for a query-parameter string, restricted to the ISO
`YYYY-MM-DD` form; `none` models the Invalid Date produced by any other
string. -/
def parseDate (s : String) : Option DateT :=
  match splitDash s.toList with
  | [ys, ms, ds] =>
    if ys.length = 4 ∧ ms.length = 2 ∧ ds.length = 2 ∧
       ys.all Char.isDigit ∧ ms.all Char.isDigit ∧ ds.all Char.isDigit then
      let y := digitsToNat ys
      let m := digitsToNat ms
      let d := digitsToNat ds
      if 1 ≤ m ∧ m ≤ 12 ∧ 1 ≤ d ∧ d ≤ daysInMonth (y : Int) m then
        some ⟨(y : Int), m, d⟩
      else none
    else none
  | _ => none

/-- JS `Date.prototype.setMonth` to 0-based month index `mIdx` (possibly
negative): the year/month are renormalised, and a day-of-month exceeding the
target month's length rolls over into the following month. -/
def jsSetMonthIndex (d : DateT) (mIdx : Int) : DateT :=
  let y := d.year + mIdx.fdiv 12
  let m := (mIdx.emod 12).toNat + 1
  if d.day ≤ daysInMonth y m then ⟨y, m, d.day⟩
  else if m = 12 then ⟨y + 1, 1, d.day - daysInMonth y m⟩
  else ⟨y, m + 1, d.day - daysInMonth y m⟩

/-- `startDate.setMonth(startDate.getMonth() - months)` from the
`getMonthlyTrends` static: subtract `n` months from `d`. -/
def jsSubMonths (d : DateT) (n : Nat) : DateT :=
  jsSetMonthIndex d ((d.month : Int) - 1 - (n : Int))

/-- ASCII lower-casing of a character code. -/
def lowerCode (n : Nat) : Nat :=
  if 65 ≤ n ∧ n ≤ 90 then n + 32 else n

/-- Lower-cased character codes of a string. -/
def lowerCodes (s : String) : List Nat :=
  s.toList.map fun c => lowerCode c.toNat

/-- `needle` occurs as a contiguous run inside the list. -/
def hasInfix (needle : List Nat) : List Nat → Bool
  | [] => needle.isEmpty
  | c :: t => needle.isPrefixOf (c :: t) || hasInfix needle t

/-- Case-insensitive literal substring containment of `pat` in `hay` — the
semantics the spec's words ("case-insensitive substring match") describe.
This is the spec-side definition; the source's `$regex` queries are modelled
by `regexMatchCI` below, and `regexMatchCI_plain` proves the two coincide on
metacharacter-free pattern strings. -/
def containsCI (hay pat : String) : Bool :=
  hasInfix (lowerCodes pat) (lowerCodes hay)

/-- Regular-expression abstract syntax for the modelled PCRE fragment:
the empty string, the empty (never-matching) language, a literal character
code, the dot, concatenation, alternation and Kleene star. -/
inductive Regex where
  | emptyStr
  | fail
  | char (c : Nat)
  | anyChar
  | seq (a b : Regex)
  | alt (a b : Regex)
  | star (a : Regex)
deriving DecidableEq, Repr

/-- The regex accepts the empty string. -/
def Regex.nullable : Regex → Bool
  | .emptyStr => true
  | .fail => false
  | .char _ => false
  | .anyChar => true
  | .seq a b => a.nullable && b.nullable
  | .alt a b => a.nullable || b.nullable
  | .star _ => true

/-- Brzozowski derivative of the regex by one character code. -/
def Regex.deriv : Regex → Nat → Regex
  | .emptyStr, _ => .fail
  | .fail, _ => .fail
  | .char c, d => if c = d then .emptyStr else .fail
  | .anyChar, _ => .emptyStr
  | .seq a b, d =>
    if a.nullable then .alt (.seq (a.deriv d) b) (b.deriv d)
    else .seq (a.deriv d) b
  | .alt a b, d => .alt (a.deriv d) (b.deriv d)
  | .star a, d => .seq (a.deriv d) (.star a)

/-- Some prefix of the input matches the regex. -/
def matchHere : Regex → List Nat → Bool
  | r, [] => r.nullable
  | r, c :: t => r.nullable || matchHere (r.deriv c) t

/-- The regex matches somewhere inside the input (Mongo `$regex` is
unanchored: a match at any position selects the document). -/
def searchRegex : Regex → List Nat → Bool
  | r, [] => r.nullable
  | r, c :: t => matchHere r (c :: t) || searchRegex r t

/-- Right-nested concatenation of a list of regexes. -/
def listToSeq (l : List Regex) : Regex :=
  l.foldr Regex.seq Regex.emptyStr

/-- Flush the pending last atom into the (reversed) atom list. -/
def pushLast (atoms : List Regex) (l : Option Regex) : List Regex :=
  match l with
  | some r => r :: atoms
  | none => atoms

/-- One-pass pattern parser for the modelled PCRE fragment.  State: the
completed atoms of the current sequence (reversed), the pending last atom
(the target of a following quantifier), a stack of enclosing group contexts,
and a quantifier state (0 = fresh atom, 1 = just quantified, 2 = lazy-marked).
Rejections mirror PCRE errors: a quantifier with nothing to repeat, a
quantifier immediately following another quantifier, and unbalanced
parentheses. -/
def parseLoop : List Char → List Regex → Option Regex →
    List (List Regex × Option Regex) → Nat → Option Regex
  | [], atoms, l, [], _ => some (listToSeq (pushLast atoms l).reverse)
  | [], _, _, _ :: _, _ => none
  | c :: t, atoms, l, stk, qstate =>
    if c = '(' then parseLoop t [] none ((atoms, l) :: stk) 0
    else if c = ')' then
      match stk with
      | [] => none
      | (atoms2, l2) :: stk2 =>
        parseLoop t (pushLast atoms2 l2)
          (some (listToSeq (pushLast atoms l).reverse)) stk2 0
    else if c = '*' then
      match l with
      | some r => if qstate = 0 then parseLoop t atoms (some (.star r)) stk 1
                  else none
      | none => none
    else if c = '+' then
      match l with
      | some r => if qstate = 0 then
                    parseLoop t atoms (some (.seq r (.star r))) stk 1
                  else none
      | none => none
    else if c = '?' then
      if qstate = 1 then parseLoop t atoms l stk 2
      else
        match l with
        | some r => if qstate = 0 then
                      parseLoop t atoms (some (.alt r .emptyStr)) stk 1
                    else none
        | none => none
    else if c = '.' then parseLoop t (pushLast atoms l) (some .anyChar) stk 0
    else parseLoop t (pushLast atoms l)
      (some (.char (lowerCode c.toNat))) stk 0

/-- `new RegExp`-style parse of a `$regex` pattern string into the modelled
fragment: literal characters, `.`, grouping `(` `)`, the quantifiers `*` `+`
`?` and the lazy modifier `?` after a quantifier.  `none` models an invalid
pattern — one PCRE itself rejects (dangling or doubled quantifier, unbalanced
parenthesis) — which makes the store reject the whole query, surfacing as the
controller's generic 500.  Patterns using constructs beyond the fragment
(character classes `[` `]`, bounded repeats `{` `}`, escapes with the
backslash, anchors, alternation bars, possessive quantifiers) are outside the
modelled pattern universe and are mapped to `none` as well; nothing is claimed
about them. -/
def parsePattern (s : String) : Option Regex :=
  parseLoop s.toList [] none [] 0

/-- Mongo `{$regex: pat, $options: 'i'}` on a user-supplied pattern string:
the pattern is parsed as a regular expression and matched, unanchored and
ASCII-case-insensitively, against the field value; an unparseable pattern
matches no document (the store-level query error it raises in the program is
outside the embedding, see `parsePattern`). -/
def regexMatchCI (hay pat : String) : Bool :=
  match parsePattern pat with
  | some r => searchRegex r (lowerCodes hay)
  | none => false

/-- A pattern character with no special meaning: neither a metacharacter of
the modelled fragment nor one of the constructs outside the universe. -/
def plainChar (c : Char) : Bool :=
  decide (c ≠ '(' ∧ c ≠ ')' ∧ c ≠ '*' ∧ c ≠ '+' ∧ c ≠ '?' ∧ c ≠ '.' ∧
    c ≠ '[' ∧ c ≠ ']' ∧ c ≠ '{' ∧ c ≠ '}' ∧ c ≠ '\\' ∧ c ≠ '^' ∧
    c ≠ '$' ∧ c ≠ '|')

/-- The literal-word regex: the right-nested concatenation of character
atoms. -/
def litRegex (w : List Nat) : Regex :=
  w.foldr (fun c r => .seq (.char c) r) .emptyStr

/-- `$regex` against an optional document field: a missing field never
matches. -/
def optMatch (f : Option String) (pat : String) : Bool :=
  match f with
  | some s => regexMatchCI s pat
  | none => false

/-- `mongoose.Types.ObjectId.isValid` on a string: 24 hexadecimal
characters. -/
def isValidObjectId (s : String) : Bool :=
  s.length == 24 && s.toList.all fun c =>
    c.isDigit || (decide ('a' ≤ c) && decide (c ≤ 'f'))
      || (decide ('A' ≤ c) && decide (c ≤ 'F'))

/-- A transaction document: the `transactionSchema` fields read by the
operations under verification. -/
structure Transaction where
  _id : String
  user : String
  type : String
  amount : Rat
  category : String
  subcategory : Option String := none
  description : Option String := none
  date : DateT
  notes : Option String := none
deriving DecidableEq, Repr

/-- Outcome of a controller operation, by HTTP status class:
`ok` (200), `badRequest` (400, validation), `notFound` (404),
`serverError` (500, the generic catch-block response). -/
inductive Resp (α : Type) where
  | ok (data : α)
  | badRequest (message : String)
  | notFound (message : String)
  | serverError (message : String)
deriving DecidableEq, Repr

/-- A `Resp` is a 400-class validation failure. -/
def Resp.isValidationError {α : Type} : Resp α → Bool
  | .badRequest _ => true
  | _ => false

/-- Sort fields of the list endpoint that correspond to schema fields in this
embedding (`sortBy` defaults to `date` in the controller). -/
inductive SortField where
  | date
  | amount
deriving DecidableEq, Repr

/-- Query parameters of `GET /api/transactions`, with the controller's
destructuring defaults. `none` is an absent parameter; string parameters
keep their raw form because the controller tests them for JS truthiness. -/
structure ListParams where
  page : Nat := 1
  limit : Nat := 10
  type : Option String := none
  category : Option String := none
  startDate : Option String := none
  endDate : Option String := none
  search : Option String := none
  sortBy : SortField := .date
  sortOrder : String := "desc"
deriving Repr

/-- JS truthiness of an optional string parameter: present and non-empty. -/
def truthy : Option String → Bool
  | some s => !(s == "")
  | none => false

/-- The `query.type` clause: applied only when `type` is truthy and one of
`income`/`expense`; otherwise silently ignored. -/
def typeClause (p : ListParams) (t : Transaction) : Bool :=
  if truthy p.type && (p.type == some "income" || p.type == some "expense") then
    some t.type == p.type
  else true

/-- The `query.category` `$regex` clause. -/
def categoryClause (p : ListParams) (t : Transaction) : Bool :=
  if truthy p.category then regexMatchCI t.category (p.category.getD "")
  else true

/-- The `query.date` range clause (`$gte`/`$lte` from the parsed bounds); a
bound whose string failed to parse can match nothing, but `getTransactions`
never reaches matching in that case (the cast error is modelled there). -/
def dateClause (p : ListParams) (t : Transaction) : Bool :=
  (if truthy p.startDate then
    match parseDate (p.startDate.getD "") with
    | some sd => DateT.leB sd t.date
    | none => false
   else true) &&
  (if truthy p.endDate then
    match parseDate (p.endDate.getD "") with
    | some ed => DateT.leB t.date ed
    | none => false
   else true)

/-- The `query.$or` free-text search clause over description, category and
notes. -/
def searchClause (p : ListParams) (t : Transaction) : Bool :=
  if truthy p.search then
    let s := p.search.getD ""
    optMatch t.description s || regexMatchCI t.category s || optMatch t.notes s
  else true

/-- The full find predicate built by `getTransactions` (lines 22–44 of the
controller), conjoining the always-present `user` clause with every supplied
filter. -/
def matchesQuery (uid : String) (p : ListParams) (t : Transaction) : Bool :=
  t.user == uid && typeClause p t && categoryClause p t &&
    dateClause p t && searchClause p t

/-- Comparison used by the store's sort for the list endpoint: ascending on
the sort field when `sortOrder ≠ "desc"`, descending otherwise. -/
def sortLe (p : ListParams) (a b : Transaction) : Bool :=
  let keyLe : Transaction → Transaction → Bool :=
    match p.sortBy with
    | .date => fun x y => DateT.leB x.date y.date
    | .amount => fun x y => decide (x.amount ≤ y.amount)
  if p.sortOrder == "desc" then keyLe b a else keyLe a b

/-- The matching documents in store order. -/
def matchedDocs (store : List Transaction) (uid : String) (p : ListParams) :
    List Transaction :=
  store.filter (matchesQuery uid p)

/-- The single sorted sequence the query executes over; every page is a slice
of this one list (one query execution, deterministic stable sort). -/
def sortedMatches (store : List Transaction) (uid : String) (p : ListParams) :
    List Transaction :=
  (matchedDocs store uid p).insertionSort fun a b => sortLe p a b = true

/-- The `pagination` object of the list response. -/
structure Pagination where
  currentPage : Nat
  totalPages : Nat
  totalItems : Nat
  itemsPerPage : Nat
  hasNextPage : Bool
  hasPrevPage : Bool
deriving DecidableEq, Repr

/-- `Math.ceil (total / limit)` for positive `limit`. -/
def ceilDiv (total limit : Nat) : Nat :=
  (total + limit - 1) / limit

/-- A supplied (truthy) date parameter whose string is not a well-formed date:
the built query then holds an Invalid Date, and executing it makes Mongoose
raise a cast error. -/
def badDateParam (p : ListParams) : Bool :=
  (truthy p.startDate && (parseDate (p.startDate.getD "")).isNone) ||
  (truthy p.endDate && (parseDate (p.endDate.getD "")).isNone)

/-- `getTransactions`: build the query, sort, paginate.  A malformed supplied
date makes the awaited find reject (Mongoose `CastError`), which the catch
block reports as the generic 500 response. -/
def getTransactions (store : List Transaction) (uid : String)
    (p : ListParams) : Resp (List Transaction × Pagination) :=
  if badDateParam p then
    .serverError "Server error fetching transactions"
  else
    let sorted := sortedMatches store uid p
    let total := sorted.length
    let skip := (p.page - 1) * p.limit
    let totalPages := ceilDiv total p.limit
    .ok ((sorted.drop skip).take p.limit,
      { currentPage := p.page
        totalPages := totalPages
        totalItems := total
        itemsPerPage := p.limit
        hasNextPage := decide (p.page < totalPages)
        hasPrevPage := decide (1 < p.page) })

/-- `getTransaction`: `findOne {_id, user}`. -/
def getTransaction (store : List Transaction) (uid : String) (tid : String) :
    Resp Transaction :=
  match store.find? (fun t => t._id == tid && t.user == uid) with
  | none => .notFound "Transaction not found"
  | some t => .ok t

/-- The fields `PUT /api/transactions/:id` may carry in `req.body`; each
`some` is a field present in the body (applied by `findByIdAndUpdate` as a
`$set`).  Nothing in the controller strips or protects any schema path —
in particular `user` passes straight through. -/
structure UpdateBody where
  user : Option String := none
  type : Option String := none
  amount : Option Rat := none
  category : Option String := none
  subcategory : Option String := none
  description : Option String := none
  date : Option DateT := none
  notes : Option String := none
deriving Repr

/-- Apply the body's `$set` to a document. -/
def applyUpdate (t : Transaction) (b : UpdateBody) : Transaction :=
  { t with
    user := b.user.getD t.user
    type := b.type.getD t.type
    amount := b.amount.getD t.amount
    category := b.category.getD t.category
    subcategory := match b.subcategory with
      | some s => some s
      | none => t.subcategory
    description := match b.description with
      | some s => some s
      | none => t.description
    date := b.date.getD t.date
    notes := match b.notes with
      | some s => some s
      | none => t.notes }

/-- `runValidators: true`: schema validators on the updated paths (`type`
enum, `amount` bounds, length bounds, `category` required).  A `user` value
that is not a well-formed ObjectId would be a Mongoose cast error rather than
a validation error; it is folded in here because no claim distinguishes the
two for this field. -/
def validUpdate (b : UpdateBody) : Bool :=
  (match b.type with
   | some ty => ty == "income" || ty == "expense"
   | none => true) &&
  (match b.amount with
   | some a => decide ((1 : Rat) / 100 ≤ a) && decide (a ≤ 1000000)
   | none => true) &&
  (match b.category with
   | some c => !(c == "") && c.length ≤ 50
   | none => true) &&
  (match b.subcategory with
   | some s => s.length ≤ 50
   | none => true) &&
  (match b.description with
   | some d => d.length ≤ 200
   | none => true) &&
  (match b.notes with
   | some n => n.length ≤ 500
   | none => true) &&
  (match b.user with
   | some u => isValidObjectId u
   | none => true)

/-- `updateTransaction`: ownership-scoped `findOne {_id, user}`, then
`findByIdAndUpdate(id, req.body, {new: true, runValidators: true})` — the
update step itself is keyed on `_id` alone and applies the body verbatim. -/
def updateTransaction (store : List Transaction) (uid : String) (tid : String)
    (body : UpdateBody) : Resp Transaction × List Transaction :=
  match store.find? (fun t => t._id == tid && t.user == uid) with
  | none => (.notFound "Transaction not found", store)
  | some _ =>
    if validUpdate body then
      let store2 := store.map fun t =>
        if t._id == tid then applyUpdate t body else t
      match store2.find? (fun t => t._id == tid) with
      | some t2 => (.ok t2, store2)
      | none => (.serverError "Server error updating transaction", store2)
    else (.badRequest "Validation failed", store)

/-- `deleteTransaction`: ownership-scoped `findOne {_id, user}`, then
`findByIdAndDelete(id)`. -/
def deleteTransaction (store : List Transaction) (uid : String)
    (tid : String) : Resp Unit × List Transaction :=
  match store.find? (fun t => t._id == tid && t.user == uid) with
  | none => (.notFound "Transaction not found", store)
  | some _ => (.ok (), store.filter fun t => !(t._id == tid))

/-- `bulkDeleteTransactions`: reject an empty/non-array body; reject the whole
request if any id fails `ObjectId.isValid`; otherwise
`deleteMany {_id ∈ ids, user}` and report `deletedCount`. -/
def bulkDeleteTransactions (store : List Transaction) (uid : String)
    (transactionIds : List String) : Resp Nat × List Transaction :=
  if transactionIds.isEmpty then
    (.badRequest "Please provide an array of transaction IDs", store)
  else
    let validIds := transactionIds.filter isValidObjectId
    if validIds.length != transactionIds.length then
      (.badRequest "Some transaction IDs are invalid", store)
    else
      let hit : Transaction → Bool := fun t =>
        validIds.contains t._id && t.user == uid
      ((.ok (store.filter hit).length), store.filter fun t => !hit t)

/-- One `$group` result of the Summary / Category-breakdown pipelines:
`{_id, total: $sum amount, count: $sum 1, avgAmount: $avg amount}`. -/
structure AggGroup where
  _id : String
  total : Rat
  count : Nat
  avgAmount : Rat
deriving DecidableEq, Repr

/-- Sum of amounts of a document list. -/
def sumAmounts (l : List Transaction) : Rat :=
  l.foldr (fun t a => t.amount + a) 0

/-- The distinct elements of a list, first occurrences first (Mongo `$group`
emits one group per distinct key; its order is unspecified, this is the
deterministic choice of the model). -/
def uniqueKeys {α : Type} [BEq α] : List α → List α
  | [] => []
  | a :: t => a :: (uniqueKeys t).filter fun b => !(b == a)

/-- Mongo `$group` by a string key with `$sum`/`$sum 1`/`$avg`: one output
group per distinct key of the input. -/
def aggBy (key : Transaction → String) (l : List Transaction) :
    List AggGroup :=
  (uniqueKeys (l.map key)).map fun k =>
    let g := l.filter fun t => key t == k
    { _id := k
      total := sumAmounts g
      count := g.length
      avgAmount := sumAmounts g / (g.length : Rat) }

/-- The optional date range of the aggregation statics: applied only when
BOTH bounds are truthy (`if (startDate && endDate)`), inclusive at both ends.
The raw query strings are modelled post-`new Date(...)` as `Option DateT`,
`none` standing for an absent (or empty) parameter. -/
def dateRangeFilter (s e : Option DateT) (t : Transaction) : Bool :=
  match s, e with
  | some sd, some ed => DateT.leB sd t.date && DateT.leB t.date ed
  | _, _ => true

/-- Static `Transaction.getUserSummary`: match user (+ both-sided date range),
group by `$type`. -/
def getUserSummary (store : List Transaction) (uid : String)
    (s e : Option DateT) : List AggGroup :=
  aggBy (fun t => t.type)
    (store.filter fun t => t.user == uid && dateRangeFilter s e t)

/-- The fixed-shape object built by the summary controller. -/
structure SummaryData where
  income : Rat
  expense : Rat
  balance : Rat
  incomeCount : Nat
  expenseCount : Nat
  totalTransactions : Nat
deriving DecidableEq, Repr

/-- The all-zero `formattedSummary` initial object. -/
def zeroSummary : SummaryData :=
  { income := 0, expense := 0, balance := 0,
    incomeCount := 0, expenseCount := 0, totalTransactions := 0 }

/-- One iteration of the controller's `summary.forEach(...)` reshaping loop:
an `income` group fills the income fields, an `expense` group the expense
fields, anything else is ignored. -/
def summaryStep (acc : SummaryData) (it : AggGroup) : SummaryData :=
  if it._id == "income" then
    { acc with income := it.total, incomeCount := it.count }
  else if it._id == "expense" then
    { acc with expense := it.total, expenseCount := it.count }
  else acc

/-- The controller's `summary.forEach(...)` reshaping loop followed by the
`balance`/`totalTransactions` assignments. -/
def formatSummary (items : List AggGroup) : SummaryData :=
  let base := items.foldl summaryStep zeroSummary
  { base with
    balance := base.income - base.expense
    totalTransactions := base.incomeCount + base.expenseCount }

/-- `getTransactionSummary`: run the static and reshape. -/
def getTransactionSummary (store : List Transaction) (uid : String)
    (s e : Option DateT) : Resp SummaryData :=
  .ok (formatSummary (getUserSummary store uid s e))

/-- Descending-by-`total` comparison of the category `$sort` stage. -/
def byTotalDesc (a b : AggGroup) : Bool :=
  decide (b.total ≤ a.total)

/-- Static `Transaction.getCategoryBreakdown`: match user + type (+ both-sided
date range), group by `$category`, sort by `total` descending. -/
def getCategoryBreakdownAgg (store : List Transaction) (uid : String)
    (ty : String) (s e : Option DateT) : List AggGroup :=
  (aggBy (fun t => t.category)
    (store.filter fun t =>
      t.user == uid && t.type == ty && dateRangeFilter s e t)).insertionSort
    fun a b => byTotalDesc a b = true

/-- Controller `getCategoryBreakdown`: 400 unless the path `type` is
`income` or `expense`, else the pipeline result. -/
def getCategoryBreakdown (store : List Transaction) (uid : String)
    (ty : String) (s e : Option DateT) : Resp (List AggGroup) :=
  if !(ty == "income" || ty == "expense") then
    .badRequest "Type must be either income or expense"
  else
    .ok (getCategoryBreakdownAgg store uid ty s e)

/-- Composite `$group` key of the monthly-trend pipeline:
`{year: $year date, month: $month date, type}`. -/
structure TrendKey where
  year : Int
  month : Nat
  type : String
deriving DecidableEq, Repr

/-- One monthly-trend group: `{_id, total: $sum amount, count: $sum 1}`. -/
structure TrendGroup where
  _id : TrendKey
  total : Rat
  count : Nat
deriving DecidableEq, Repr

/-- The trend key of a document. -/
def trendKey (t : Transaction) : TrendKey :=
  { year := t.date.year, month := t.date.month, type := t.type }

/-- Ascending sort of the trend pipeline: by year, then month, then type. -/
def trendLeB (a b : TrendGroup) : Bool :=
  decide (a._id.year < b._id.year ∨ (a._id.year = b._id.year ∧
    (a._id.month < b._id.month ∨ (a._id.month = b._id.month ∧
      a._id.type ≤ b._id.type))))

/-- `$group` by the composite trend key, one group per distinct key. -/
def aggTrend (l : List Transaction) : List TrendGroup :=
  (uniqueKeys (l.map trendKey)).map fun k =>
    let g := l.filter fun t => trendKey t == k
    { _id := k, total := sumAmounts g, count := g.length }

/-- Static `Transaction.getMonthlyTrends`: cutoff = now minus `months` months
(JS `setMonth`), match user and `date ≥ cutoff`, group by (year, month, type),
sort ascending. -/
def getMonthlyTrendsAgg (store : List Transaction) (uid : String)
    (now : DateT) (months : Nat) : List TrendGroup :=
  let startDate := jsSubMonths now months
  (aggTrend (store.filter fun t =>
    t.user == uid && DateT.leB startDate t.date)).insertionSort
    fun a b => trendLeB a b = true

/-- Controller `getMonthlyTrends`: `months` defaults to 12 when absent. -/
def getMonthlyTrends (store : List Transaction) (uid : String) (now : DateT)
    (months : Option Nat) : Resp (List TrendGroup) :=
  .ok (getMonthlyTrendsAgg store uid now (months.getD 12))

/-! ## Helper lemmas -/

theorem foldl_summaryStep_income (items : List AggGroup) (acc : SummaryData)
    (h : ∀ g ∈ items, g._id ≠ "income") :
    (items.foldl summaryStep acc).income = acc.income ∧
    (items.foldl summaryStep acc).incomeCount = acc.incomeCount := by
  induction items generalizing acc with
  | nil => exact ⟨rfl, rfl⟩
  | cons g gs ih =>
    have hg : (g._id == "income") = false :=
      beq_eq_false_iff_ne.mpr (h g (by simp))
    have h2 : ∀ x ∈ gs, x._id ≠ "income" := fun x hx => h x (by simp [hx])
    by_cases he : (g._id == "expense") = true
    · simpa [summaryStep, hg, he] using
        ih { acc with expense := g.total, expenseCount := g.count } h2
    · have he' : (g._id == "expense") = false := by simpa using he
      simpa [summaryStep, hg, he'] using ih acc h2

theorem foldl_summaryStep_expense (items : List AggGroup) (acc : SummaryData)
    (h : ∀ g ∈ items, g._id ≠ "expense") :
    (items.foldl summaryStep acc).expense = acc.expense ∧
    (items.foldl summaryStep acc).expenseCount = acc.expenseCount := by
  induction items generalizing acc with
  | nil => exact ⟨rfl, rfl⟩
  | cons g gs ih =>
    have hg : (g._id == "expense") = false :=
      beq_eq_false_iff_ne.mpr (h g (by simp))
    have h2 : ∀ x ∈ gs, x._id ≠ "expense" := fun x hx => h x (by simp [hx])
    by_cases hi : (g._id == "income") = true
    · simpa [summaryStep, hg, hi] using
        ih { acc with income := g.total, incomeCount := g.count } h2
    · have hi' : (g._id == "income") = false := by simpa using hi
      simpa [summaryStep, hg, hi'] using ih acc h2

theorem mem_uniqueKeys {α : Type} [BEq α] [LawfulBEq α] {x : α}
    {l : List α} : x ∈ uniqueKeys l ↔ x ∈ l := by
  induction l with
  | nil => simp [uniqueKeys]
  | cons a t ih =>
    by_cases hxa : x = a
    · simp [uniqueKeys, hxa]
    · simp [uniqueKeys, List.mem_filter, ih, hxa]

theorem nodup_uniqueKeys {α : Type} [BEq α] [LawfulBEq α] (l : List α) :
    (uniqueKeys l).Nodup := by
  induction l with
  | nil => simp [uniqueKeys]
  | cons a t ih =>
    rw [uniqueKeys, List.nodup_cons]
    constructor
    · intro hmem
      have h2 := List.of_mem_filter hmem
      simp at h2
    · exact ih.filter _

theorem mem_aggBy_exists (key : Transaction → String) (l : List Transaction)
    (g : AggGroup) (h : g ∈ aggBy key l) : ∃ t ∈ l, key t = g._id := by
  rw [aggBy] at h
  obtain ⟨k, hk, hg⟩ := List.mem_map.mp h
  obtain ⟨t, ht, hkt⟩ := List.mem_map.mp (mem_uniqueKeys.mp hk)
  exact ⟨t, ht, by rw [hkt, ← hg]⟩

/-! ## Claims -/

/-- C3: for every user and every date range (including ranges matching zero
transactions), the summary operation returns the fixed-shape object with
`balance = income − expense` and
`totalTransactions = incomeCount + expenseCount`; a type group absent from the
aggregation output contributes zero to its fields, and a user with no matching
transactions gets the all-zero object rather than an error. -/
theorem C3_summary_fixed_shape (store : List Transaction) (uid : String)
    (s e : Option DateT) :
    ∃ d : SummaryData,
      getTransactionSummary store uid s e = .ok d ∧
      d.balance = d.income - d.expense ∧
      d.totalTransactions = d.incomeCount + d.expenseCount ∧
      ((∀ g ∈ getUserSummary store uid s e, g._id ≠ "income") →
        d.income = 0 ∧ d.incomeCount = 0) ∧
      ((∀ g ∈ getUserSummary store uid s e, g._id ≠ "expense") →
        d.expense = 0 ∧ d.expenseCount = 0) ∧
      ((store.filter fun t => t.user == uid && dateRangeFilter s e t) = [] →
        d = zeroSummary) := by
  refine ⟨formatSummary (getUserSummary store uid s e), rfl, rfl, rfl, ?_, ?_, ?_⟩
  · intro h
    have hin := foldl_summaryStep_income (getUserSummary store uid s e) zeroSummary h
    exact ⟨hin.1, hin.2⟩
  · intro h
    have hex := foldl_summaryStep_expense (getUserSummary store uid s e) zeroSummary h
    exact ⟨hex.1, hex.2⟩
  · intro h
    have hsum : getUserSummary store uid s e = [] := by
      simp [getUserSummary, h, aggBy, uniqueKeys]
    rw [hsum]
    norm_num [formatSummary, zeroSummary]

/-- C3 witness: the spec's §8 scenario — an expense of 50 on 2024-01-05 and
an income of 1000 on 2024-01-10 give, for January 2024,
income 1000 / expense 50 / balance 950 / counts 1,1,2. -/
theorem C3_summary_fixed_shape_witness :
    (∃ d : SummaryData,
      getTransactionSummary
        [{ _id := "aaaaaaaaaaaaaaaaaaaaaaa1", user := "aaaaaaaaaaaaaaaaaaaaaaaa",
           type := "expense", amount := 50, category := "Food",
           date := ⟨2024, 1, 5⟩ },
         { _id := "aaaaaaaaaaaaaaaaaaaaaaa2", user := "aaaaaaaaaaaaaaaaaaaaaaaa",
           type := "income", amount := 1000, category := "Salary",
           date := ⟨2024, 1, 10⟩ }]
        "aaaaaaaaaaaaaaaaaaaaaaaa" (some ⟨2024, 1, 1⟩) (some ⟨2024, 1, 31⟩)
        = .ok d ∧
      d.balance = d.income - d.expense ∧
      d.totalTransactions = d.incomeCount + d.expenseCount) ∧
    getTransactionSummary
        [{ _id := "aaaaaaaaaaaaaaaaaaaaaaa1", user := "aaaaaaaaaaaaaaaaaaaaaaaa",
           type := "expense", amount := 50, category := "Food",
           date := ⟨2024, 1, 5⟩ },
         { _id := "aaaaaaaaaaaaaaaaaaaaaaa2", user := "aaaaaaaaaaaaaaaaaaaaaaaa",
           type := "income", amount := 1000, category := "Salary",
           date := ⟨2024, 1, 10⟩ }]
        "aaaaaaaaaaaaaaaaaaaaaaaa" (some ⟨2024, 1, 1⟩) (some ⟨2024, 1, 31⟩)
      = .ok { income := 1000, expense := 50, balance := 950,
              incomeCount := 1, expenseCount := 1, totalTransactions := 2 } := by
  refine ⟨?_, ?_⟩
  · obtain ⟨d, h1, h2, h3, _⟩ := C3_summary_fixed_shape
      [{ _id := "aaaaaaaaaaaaaaaaaaaaaaa1", user := "aaaaaaaaaaaaaaaaaaaaaaaa",
         type := "expense", amount := 50, category := "Food",
         date := ⟨2024, 1, 5⟩ },
       { _id := "aaaaaaaaaaaaaaaaaaaaaaa2", user := "aaaaaaaaaaaaaaaaaaaaaaaa",
         type := "income", amount := 1000, category := "Salary",
         date := ⟨2024, 1, 10⟩ }]
      "aaaaaaaaaaaaaaaaaaaaaaaa" (some ⟨2024, 1, 1⟩) (some ⟨2024, 1, 31⟩)
    exact ⟨d, h1, h2, h3⟩
  · simp [getTransactionSummary, getUserSummary, dateRangeFilter, DateT.leB,
      aggBy, uniqueKeys, sumAmounts, formatSummary, summaryStep, zeroSummary]
    norm_num

/-- C7 counterexample: with only `startDate` supplied, the claimed one-sided
bound is NOT applied — a transaction dated 2020-01-01, far before the supplied
start bound 2024-01-01, still contributes to the summary aggregation. -/
theorem C7_one_sided_bound_counterexample :
    getUserSummary
      [{ _id := "111111111111111111111111", user := "aaaaaaaaaaaaaaaaaaaaaaaa",
         type := "expense", amount := 50, category := "Food",
         date := ⟨2020, 1, 1⟩ }]
      "aaaaaaaaaaaaaaaaaaaaaaaa" (some ⟨2024, 1, 1⟩) none
      = [{ _id := "expense", total := 50, count := 1, avgAmount := 50 }] ∧
    DateT.leB ⟨2024, 1, 1⟩ ⟨2020, 1, 1⟩ = false := by
  refine ⟨?_, by decide⟩
  simp [getUserSummary, dateRangeFilter, aggBy, uniqueKeys, sumAmounts]

/-- C7 amended: in the Summary and Category-breakdown pipelines the inclusive
date range on `date` is applied only when BOTH `startDate` and `endDate` are
supplied; if either is absent, no date constraint applies at all (the one-sided
case of the original claim does not hold). -/
theorem C7_date_range_amended (store : List Transaction) (uid ty : String)
    (sd ed : DateT) (s e : Option DateT) (hone : s = none ∨ e = none) :
    getUserSummary store uid (some sd) (some ed) =
      aggBy (fun t => t.type) (store.filter fun t =>
        t.user == uid && (DateT.leB sd t.date && DateT.leB t.date ed)) ∧
    getCategoryBreakdownAgg store uid ty (some sd) (some ed) =
      (aggBy (fun t => t.category) (store.filter fun t =>
        t.user == uid && t.type == ty &&
          (DateT.leB sd t.date && DateT.leB t.date ed))).insertionSort
        (fun a b => byTotalDesc a b = true) ∧
    (∀ g ∈ getUserSummary store uid (some sd) (some ed),
      ∃ t ∈ store, t.user = uid ∧ DateT.leB sd t.date = true ∧
        DateT.leB t.date ed = true ∧ t.type = g._id) ∧
    getUserSummary store uid s e =
      aggBy (fun t => t.type) (store.filter fun t => t.user == uid) ∧
    getCategoryBreakdownAgg store uid ty s e =
      (aggBy (fun t => t.category) (store.filter fun t =>
        t.user == uid && t.type == ty)).insertionSort
        (fun a b => byTotalDesc a b = true) := by
  have hfree : dateRangeFilter s e = fun _ => true := by
    funext t
    rcases hone with h | h <;> rcases s with _ | sv <;> rcases e with _ | ev <;>
      simp_all [dateRangeFilter]
  refine ⟨rfl, rfl, ?_, ?_, ?_⟩
  · intro g hg
    obtain ⟨t, ht, hkey⟩ := mem_aggBy_exists _ _ _ hg
    have hmem := List.mem_filter.mp ht
    have hcond := hmem.2
    simp only [dateRangeFilter, Bool.and_eq_true, beq_iff_eq] at hcond
    exact ⟨t, hmem.1, hcond.1, hcond.2.1, hcond.2.2, hkey⟩
  · rw [getUserSummary, hfree]
    simp
  · rw [getCategoryBreakdownAgg, hfree]
    simp

/-- C7 witness: the amended statement at a concrete store, user, type and a
range with an absent end bound. -/
theorem C7_date_range_amended_witness :
    ((none : Option DateT) = none ∨ (none : Option DateT) = none) ∧
    (getUserSummary
        [{ _id := "111111111111111111111111", user := "aaaaaaaaaaaaaaaaaaaaaaaa",
           type := "expense", amount := 50, category := "Food",
           date := ⟨2020, 1, 1⟩ }]
        "aaaaaaaaaaaaaaaaaaaaaaaa" (some ⟨2024, 1, 1⟩) (some ⟨2024, 12, 31⟩) =
      aggBy (fun t => t.type)
        (List.filter (fun t =>
          t.user == "aaaaaaaaaaaaaaaaaaaaaaaa" &&
            (DateT.leB ⟨2024, 1, 1⟩ t.date && DateT.leB t.date ⟨2024, 12, 31⟩))
          [{ _id := "111111111111111111111111", user := "aaaaaaaaaaaaaaaaaaaaaaaa",
             type := "expense", amount := 50, category := "Food",
             date := ⟨2020, 1, 1⟩ }]) ∧
    getCategoryBreakdownAgg
        [{ _id := "111111111111111111111111", user := "aaaaaaaaaaaaaaaaaaaaaaaa",
           type := "expense", amount := 50, category := "Food",
           date := ⟨2020, 1, 1⟩ }]
        "aaaaaaaaaaaaaaaaaaaaaaaa" "expense" (some ⟨2024, 1, 1⟩) (some ⟨2024, 12, 31⟩) =
      (aggBy (fun t => t.category)
        (List.filter (fun t =>
          t.user == "aaaaaaaaaaaaaaaaaaaaaaaa" && t.type == "expense" &&
            (DateT.leB ⟨2024, 1, 1⟩ t.date && DateT.leB t.date ⟨2024, 12, 31⟩))
          [{ _id := "111111111111111111111111", user := "aaaaaaaaaaaaaaaaaaaaaaaa",
             type := "expense", amount := 50, category := "Food",
             date := ⟨2020, 1, 1⟩ }])).insertionSort
        (fun a b => byTotalDesc a b = true) ∧
    (∀ g ∈ getUserSummary
        [{ _id := "111111111111111111111111", user := "aaaaaaaaaaaaaaaaaaaaaaaa",
           type := "expense", amount := 50, category := "Food",
           date := ⟨2020, 1, 1⟩ }]
        "aaaaaaaaaaaaaaaaaaaaaaaa" (some ⟨2024, 1, 1⟩) (some ⟨2024, 12, 31⟩),
      ∃ t ∈ ([{ _id := "111111111111111111111111", user := "aaaaaaaaaaaaaaaaaaaaaaaa",
                type := "expense", amount := 50, category := "Food",
                date := ⟨2020, 1, 1⟩ }] : List Transaction),
        t.user = "aaaaaaaaaaaaaaaaaaaaaaaa" ∧ DateT.leB ⟨2024, 1, 1⟩ t.date = true ∧
          DateT.leB t.date ⟨2024, 12, 31⟩ = true ∧ t.type = g._id) ∧
    getUserSummary
        [{ _id := "111111111111111111111111", user := "aaaaaaaaaaaaaaaaaaaaaaaa",
           type := "expense", amount := 50, category := "Food",
           date := ⟨2020, 1, 1⟩ }]
        "aaaaaaaaaaaaaaaaaaaaaaaa" none none =
      aggBy (fun t => t.type)
        (List.filter (fun t => t.user == "aaaaaaaaaaaaaaaaaaaaaaaa")
          [{ _id := "111111111111111111111111", user := "aaaaaaaaaaaaaaaaaaaaaaaa",
             type := "expense", amount := 50, category := "Food",
             date := ⟨2020, 1, 1⟩ }]) ∧
    getCategoryBreakdownAgg
        [{ _id := "111111111111111111111111", user := "aaaaaaaaaaaaaaaaaaaaaaaa",
           type := "expense", amount := 50, category := "Food",
           date := ⟨2020, 1, 1⟩ }]
        "aaaaaaaaaaaaaaaaaaaaaaaa" "expense" none none =
      (aggBy (fun t => t.category)
        (List.filter (fun t =>
          t.user == "aaaaaaaaaaaaaaaaaaaaaaaa" && t.type == "expense")
          [{ _id := "111111111111111111111111", user := "aaaaaaaaaaaaaaaaaaaaaaaa",
             type := "expense", amount := 50, category := "Food",
             date := ⟨2020, 1, 1⟩ }])).insertionSort
        (fun a b => byTotalDesc a b = true)) :=
  ⟨Or.inl rfl,
    C7_date_range_amended
      [{ _id := "111111111111111111111111", user := "aaaaaaaaaaaaaaaaaaaaaaaa",
         type := "expense", amount := 50, category := "Food",
         date := ⟨2020, 1, 1⟩ }]
      "aaaaaaaaaaaaaaaaaaaaaaaa" "expense" ⟨2024, 1, 1⟩ ⟨2024, 12, 31⟩
      none none (Or.inl rfl)⟩

/-- C8 counterexample: a supplied malformed `startDate` makes the list
operation fail with the generic 500 server error of the catch block, not with
a 400-class validation error as the claim states. -/
theorem C8_malformed_date_counterexample :
    getTransactions
      [{ _id := "111111111111111111111111", user := "aaaaaaaaaaaaaaaaaaaaaaaa",
         type := "expense", amount := 50, category := "Food",
         date := ⟨2024, 1, 5⟩ }]
      "aaaaaaaaaaaaaaaaaaaaaaaa" { startDate := some "not-a-date" }
      = .serverError "Server error fetching transactions" ∧
    Resp.isValidationError
      (getTransactions
        [{ _id := "111111111111111111111111", user := "aaaaaaaaaaaaaaaaaaaaaaaa",
           type := "expense", amount := 50, category := "Food",
           date := ⟨2024, 1, 5⟩ }]
        "aaaaaaaaaaaaaaaaaaaaaaaa" { startDate := some "not-a-date" }) = false := by
  constructor <;> decide

/-- C8 amended: a supplied non-empty `startDate`/`endDate` string that is not
a well-formed date makes the list operation fail — with the generic 500 server
error (the Mongoose cast error caught by the catch block), not a validation
error — and never succeed; the claim's "fails" holds, its "validation error"
classification does not. -/
theorem C8_malformed_date_amended (store : List Transaction) (uid : String)
    (p : ListParams)
    (h : ∃ s, (p.startDate = some s ∨ p.endDate = some s) ∧ s ≠ "" ∧
      parseDate s = none) :
    getTransactions store uid p = .serverError "Server error fetching transactions" ∧
    Resp.isValidationError (getTransactions store uid p) = false ∧
    ∀ d, getTransactions store uid p ≠ .ok d := by
  obtain ⟨s, hor, hne, hparse⟩ := h
  have hbad : badDateParam p = true := by
    rcases hor with h1 | h1 <;>
      simp [badDateParam, truthy, h1, hparse, hne]
  refine ⟨?_, ?_, ?_⟩ <;> simp [getTransactions, hbad, Resp.isValidationError]

/-- C8 witness: the amended statement at a malformed concrete date string. -/
theorem C8_malformed_date_amended_witness :
    (∃ s, ((some "2024-99-99" : Option String) = some s ∨
            (none : Option String) = some s) ∧ s ≠ "" ∧ parseDate s = none) ∧
    (getTransactions ([] : List Transaction) "u"
        { startDate := some "2024-99-99" } =
      .serverError "Server error fetching transactions" ∧
    Resp.isValidationError
      (getTransactions ([] : List Transaction) "u"
        { startDate := some "2024-99-99" }) = false ∧
    ∀ d, getTransactions ([] : List Transaction) "u"
        { startDate := some "2024-99-99" } ≠ .ok d) :=
  ⟨⟨"2024-99-99", Or.inl rfl, by decide, by decide⟩,
    C8_malformed_date_amended [] "u" { startDate := some "2024-99-99" }
      ⟨"2024-99-99", Or.inl rfl, by decide, by decide⟩⟩

/-- C5 counterexample: a bulk delete whose id list holds one malformed id
(`"zzz"`) and two valid ids of transactions owned by the requester is
rejected wholesale with a 400 — nothing is deleted and no `deletedCount` is
returned, contradicting the claimed `deletedCount = 2` partial success. -/
theorem C5_invalid_id_counterexample :
    bulkDeleteTransactions
      [{ _id := "111111111111111111111111", user := "aaaaaaaaaaaaaaaaaaaaaaaa",
         type := "expense", amount := 50, category := "Food",
         date := ⟨2024, 1, 5⟩ },
       { _id := "222222222222222222222222", user := "aaaaaaaaaaaaaaaaaaaaaaaa",
         type := "income", amount := 1000, category := "Salary",
         date := ⟨2024, 1, 10⟩ }]
      "aaaaaaaaaaaaaaaaaaaaaaaa"
      ["zzz", "111111111111111111111111", "222222222222222222222222"]
      = (.badRequest "Some transaction IDs are invalid",
         [{ _id := "111111111111111111111111", user := "aaaaaaaaaaaaaaaaaaaaaaaa",
            type := "expense", amount := 50, category := "Food",
            date := ⟨2024, 1, 5⟩ },
          { _id := "222222222222222222222222", user := "aaaaaaaaaaaaaaaaaaaaaaaa",
            type := "income", amount := 1000, category := "Salary",
            date := ⟨2024, 1, 10⟩ }]) ∧
    isValidObjectId "zzz" = false ∧
    isValidObjectId "111111111111111111111111" = true ∧
    isValidObjectId "222222222222222222222222" = true := by
  refine ⟨by decide, by decide, by decide, by decide⟩

/-- C5 amended: a *malformed* id in the list causes a request-level 400
rejection with nothing deleted; only when every id is a well-formed ObjectId
does the operation succeed, deleting exactly the owned transactions among the
ids and reporting their number as `deletedCount` — ids that are well-formed
but match no owned transaction are silently skipped with no per-id error. -/
theorem C5_bulk_delete_amended (store : List Transaction) (uid : String)
    (ids : List String) (hne : ids ≠ [])
    (hv : ∀ i ∈ ids, isValidObjectId i = true) :
    bulkDeleteTransactions store uid ids =
      (.ok (store.filter fun t => ids.contains t._id && t.user == uid).length,
       store.filter fun t => !(ids.contains t._id && t.user == uid)) := by
  have hids : ids.filter isValidObjectId = ids := List.filter_eq_self.mpr hv
  have hempty : ids.isEmpty = false := by
    cases ids with
    | nil => exact absurd rfl hne
    | cons a t => rfl
  simp [bulkDeleteTransactions, hempty, hids]

/-- C5 witness: with two owned transactions, a request naming their two ids
plus a third well-formed id matching nothing succeeds with
`deletedCount = 2`. -/
theorem C5_bulk_delete_amended_witness :
    ((["111111111111111111111111", "222222222222222222222222",
       "333333333333333333333333"] : List String) ≠ [] ∧
     (∀ i ∈ (["111111111111111111111111", "222222222222222222222222",
              "333333333333333333333333"] : List String),
        isValidObjectId i = true)) ∧
    bulkDeleteTransactions
      [{ _id := "111111111111111111111111", user := "aaaaaaaaaaaaaaaaaaaaaaaa",
         type := "expense", amount := 50, category := "Food",
         date := ⟨2024, 1, 5⟩ },
       { _id := "222222222222222222222222", user := "aaaaaaaaaaaaaaaaaaaaaaaa",
         type := "income", amount := 1000, category := "Salary",
         date := ⟨2024, 1, 10⟩ }]
      "aaaaaaaaaaaaaaaaaaaaaaaa"
      ["111111111111111111111111", "222222222222222222222222",
       "333333333333333333333333"]
      = (.ok 2, []) := by
  refine ⟨⟨by decide, by decide⟩, ?_⟩
  have h := C5_bulk_delete_amended
    [{ _id := "111111111111111111111111", user := "aaaaaaaaaaaaaaaaaaaaaaaa",
       type := "expense", amount := 50, category := "Food",
       date := ⟨2024, 1, 5⟩ },
     { _id := "222222222222222222222222", user := "aaaaaaaaaaaaaaaaaaaaaaaa",
       type := "income", amount := 1000, category := "Salary",
       date := ⟨2024, 1, 10⟩ }]
    "aaaaaaaaaaaaaaaaaaaaaaaa"
    ["111111111111111111111111", "222222222222222222222222",
     "333333333333333333333333"]
    (by decide) (by decide)
  rw [h]
  decide

/-- C2: the code contradicts the claim — `updateTransaction` passes the
request body verbatim to `findByIdAndUpdate`, and the schema does not mark
`user` immutable, so a body carrying `user` reassigns the owner.  Here user A
updates their own transaction with `{user: B}`: the operation succeeds and the
stored document's owner becomes B. -/
theorem C2_owner_reassigned_bug :
    (updateTransaction
      [{ _id := "111111111111111111111111", user := "aaaaaaaaaaaaaaaaaaaaaaaa",
         type := "expense", amount := 50, category := "Food",
         date := ⟨2024, 1, 5⟩ }]
      "aaaaaaaaaaaaaaaaaaaaaaaa" "111111111111111111111111"
      { user := some "bbbbbbbbbbbbbbbbbbbbbbbb" }).2 =
      [{ _id := "111111111111111111111111", user := "bbbbbbbbbbbbbbbbbbbbbbbb",
         type := "expense", amount := 50, category := "Food",
         date := ⟨2024, 1, 5⟩ }] ∧
    (updateTransaction
      [{ _id := "111111111111111111111111", user := "aaaaaaaaaaaaaaaaaaaaaaaa",
         type := "expense", amount := 50, category := "Food",
         date := ⟨2024, 1, 5⟩ }]
      "aaaaaaaaaaaaaaaaaaaaaaaa" "111111111111111111111111"
      { user := some "bbbbbbbbbbbbbbbbbbbbbbbb" }).1 =
      .ok { _id := "111111111111111111111111", user := "bbbbbbbbbbbbbbbbbbbbbbbb",
            type := "expense", amount := 50, category := "Food",
            date := ⟨2024, 1, 5⟩ } ∧
    ("bbbbbbbbbbbbbbbbbbbbbbbb" : String) ≠ "aaaaaaaaaaaaaaaaaaaaaaaa" := by
  refine ⟨by decide, by decide, by decide⟩

instance : IsTotal AggGroup (fun a b => byTotalDesc a b = true) :=
  ⟨by intro a b; simp [byTotalDesc]; exact le_total b.total a.total⟩

instance : IsTrans AggGroup (fun a b => byTotalDesc a b = true) :=
  ⟨by
    intro a b c hab hbc
    simp [byTotalDesc] at *
    exact le_trans hbc hab⟩

theorem aggBy_map_id (key : Transaction → String) (l : List Transaction) :
    (aggBy key l).map (fun g => g._id) = uniqueKeys (l.map key) := by
  simp only [aggBy, List.map_map]
  exact List.map_id _

theorem aggBy_exists_of_mem_key (key : Transaction → String)
    (l : List Transaction) (c : String) (hc : c ∈ l.map key) :
    ∃ g ∈ aggBy key l, g._id = c := by
  rw [aggBy]
  exact ⟨_, List.mem_map.mpr ⟨c, mem_uniqueKeys.mpr hc, rfl⟩, rfl⟩

theorem aggBy_mem_spec (key : Transaction → String) (l : List Transaction)
    (g : AggGroup) (h : g ∈ aggBy key l) :
    g.total = sumAmounts (l.filter fun t => key t == g._id) ∧
    g.count = (l.filter fun t => key t == g._id).length ∧
    g.avgAmount = sumAmounts (l.filter fun t => key t == g._id) /
      ((l.filter fun t => key t == g._id).length : Rat) := by
  rw [aggBy] at h
  obtain ⟨k, hk, hg⟩ := List.mem_map.mp h
  subst hg
  exact ⟨rfl, rfl, rfl⟩

/-- C6: the category breakdown rejects with a validation error exactly when
the path `type` is neither `income` nor `expense`; for a valid type its output
is sorted descending by summed amount and holds exactly one entry per category
present in the filtered transaction set, carrying that category's sum and
count. -/
theorem C6_category_breakdown_ok (store : List Transaction) (uid ty : String)
    (s e : Option DateT) :
    (Resp.isValidationError (getCategoryBreakdown store uid ty s e) = true ↔
      (ty ≠ "income" ∧ ty ≠ "expense")) ∧
    (ty = "income" ∨ ty = "expense" →
      ∃ out, getCategoryBreakdown store uid ty s e = .ok out ∧
        out.Pairwise (fun a b => b.total ≤ a.total) ∧
        (out.map fun g => g._id).Nodup ∧
        (∀ c : String,
          (∃ g ∈ out, g._id = c) ↔
            c ∈ (store.filter fun t =>
              t.user == uid && t.type == ty && dateRangeFilter s e t).map
              fun t => t.category) ∧
        (∀ g ∈ out,
          g.total = sumAmounts ((store.filter fun t =>
            t.user == uid && t.type == ty && dateRangeFilter s e t).filter
            fun t => t.category == g._id) ∧
          g.count = ((store.filter fun t =>
            t.user == uid && t.type == ty && dateRangeFilter s e t).filter
            fun t => t.category == g._id).length)) := by
  constructor
  · by_cases hty : (ty == "income" || ty == "expense") = true
    · have hok : getCategoryBreakdown store uid ty s e =
          .ok (getCategoryBreakdownAgg store uid ty s e) := by
        simp [getCategoryBreakdown, hty]
      rw [hok]
      simp only [Bool.or_eq_true, beq_iff_eq] at hty
      simp [Resp.isValidationError]
      tauto
    · have hty2 : (ty == "income" || ty == "expense") = false := by
        simpa using hty
      have hbad : getCategoryBreakdown store uid ty s e =
          .badRequest "Type must be either income or expense" := by
        simp [getCategoryBreakdown, hty2]
      rw [hbad]
      simp at hty2
      simp [Resp.isValidationError]
      exact hty2
  · intro hvalid
    have hty : (ty == "income" || ty == "expense") = true := by
      rcases hvalid with h | h <;> simp [h]
    refine ⟨getCategoryBreakdownAgg store uid ty s e, ?_, ?_, ?_, ?_, ?_⟩
    · simp [getCategoryBreakdown, hty]
    · have hs := List.sorted_insertionSort
        (fun a b => byTotalDesc a b = true)
        (aggBy (fun t => t.category) (store.filter fun t =>
          t.user == uid && t.type == ty && dateRangeFilter s e t))
      rw [getCategoryBreakdownAgg]
      exact List.Pairwise.imp (by intro a b hab; simpa [byTotalDesc] using hab) hs
    · have hperm : List.Perm
          ((getCategoryBreakdownAgg store uid ty s e).map fun g => g._id)
          ((aggBy (fun t => t.category) (store.filter fun t =>
            t.user == uid && t.type == ty && dateRangeFilter s e t)).map
            fun g => g._id) :=
        (List.perm_insertionSort _ _).map _
      rw [hperm.nodup_iff, aggBy_map_id]
      exact nodup_uniqueKeys _
    · intro c
      rw [getCategoryBreakdownAgg]
      constructor
      · rintro ⟨g, hg, hgc⟩
        have hg2 := (List.mem_insertionSort _).mp hg
        obtain ⟨t, ht, hkt⟩ := mem_aggBy_exists _ _ _ hg2
        exact List.mem_map.mpr ⟨t, ht, by rw [hkt, hgc]⟩
      · intro hc
        obtain ⟨g, hgmem, hgc⟩ := aggBy_exists_of_mem_key
          (fun t => t.category)
          (store.filter fun t =>
            t.user == uid && t.type == ty && dateRangeFilter s e t) c hc
        exact ⟨g, (List.mem_insertionSort _).mpr hgmem, hgc⟩
    · intro g hg
      have hg2 := (List.mem_insertionSort _).mp (by rw [getCategoryBreakdownAgg] at hg; exact hg)
      have := aggBy_mem_spec _ _ _ hg2
      exact ⟨this.1, this.2.1⟩

/-- C6 witness: breakdown of the expense categories of a concrete store,
sorted descending with one entry per present category. -/
theorem C6_category_breakdown_ok_witness :
    ∃ out, getCategoryBreakdown
      [{ _id := "111111111111111111111111", user := "aaaaaaaaaaaaaaaaaaaaaaaa",
         type := "expense", amount := 50, category := "Food",
         date := ⟨2024, 1, 5⟩ },
       { _id := "222222222222222222222222", user := "aaaaaaaaaaaaaaaaaaaaaaaa",
         type := "expense", amount := 30, category := "Transport",
         date := ⟨2024, 1, 6⟩ },
       { _id := "333333333333333333333333", user := "aaaaaaaaaaaaaaaaaaaaaaaa",
         type := "expense", amount := 20, category := "Food",
         date := ⟨2024, 1, 7⟩ }]
      "aaaaaaaaaaaaaaaaaaaaaaaa" "expense" none none = .ok out ∧
      out.Pairwise (fun a b => b.total ≤ a.total) ∧
      (out.map fun g => g._id).Nodup :=
  match (C6_category_breakdown_ok
    [{ _id := "111111111111111111111111", user := "aaaaaaaaaaaaaaaaaaaaaaaa",
       type := "expense", amount := 50, category := "Food",
       date := ⟨2024, 1, 5⟩ },
     { _id := "222222222222222222222222", user := "aaaaaaaaaaaaaaaaaaaaaaaa",
       type := "expense", amount := 30, category := "Transport",
       date := ⟨2024, 1, 6⟩ },
     { _id := "333333333333333333333333", user := "aaaaaaaaaaaaaaaaaaaaaaaa",
       type := "expense", amount := 20, category := "Food",
       date := ⟨2024, 1, 7⟩ }]
    "aaaaaaaaaaaaaaaaaaaaaaaa" "expense" none none).2 (Or.inr rfl) with
  | ⟨out, h1, h2, h3, _⟩ => ⟨out, h1, h2, h3⟩

instance : IsTotal TrendGroup (fun a b => trendLeB a b = true) :=
  ⟨by
    intro a b
    simp only [trendLeB, decide_eq_true_eq]
    rcases lt_trichotomy a._id.year b._id.year with h | h | h
    · exact Or.inl (Or.inl h)
    · rcases lt_trichotomy a._id.month b._id.month with hm | hm | hm
      · exact Or.inl (Or.inr ⟨h, Or.inl hm⟩)
      · rcases le_total a._id.type b._id.type with ht | ht
        · exact Or.inl (Or.inr ⟨h, Or.inr ⟨hm, ht⟩⟩)
        · exact Or.inr (Or.inr ⟨h.symm, Or.inr ⟨hm.symm, ht⟩⟩)
      · exact Or.inr (Or.inr ⟨h.symm, Or.inl hm⟩)
    · exact Or.inr (Or.inl h)⟩

instance : IsTrans TrendGroup (fun a b => trendLeB a b = true) :=
  ⟨by
    intro a b c hab hbc
    simp only [trendLeB, decide_eq_true_eq] at *
    rcases hab with h1 | ⟨e1, hm1⟩
    · rcases hbc with h2 | ⟨e2, _⟩
      · exact Or.inl (h1.trans h2)
      · exact Or.inl (e2 ▸ h1)
    · rcases hbc with h2 | ⟨e2, hm2⟩
      · exact Or.inl (e1 ▸ h2)
      · refine Or.inr ⟨e1.trans e2, ?_⟩
        rcases hm1 with m1 | ⟨em1, t1⟩
        · rcases hm2 with m2 | ⟨em2, _⟩
          · exact Or.inl (m1.trans m2)
          · exact Or.inl (em2 ▸ m1)
        · rcases hm2 with m2 | ⟨em2, t2⟩
          · exact Or.inl (em1 ▸ m2)
          · exact Or.inr ⟨em1.trans em2, t1.trans t2⟩⟩

theorem mem_aggTrend_exists (l : List Transaction) (g : TrendGroup)
    (h : g ∈ aggTrend l) : ∃ t ∈ l, trendKey t = g._id := by
  rw [aggTrend] at h
  obtain ⟨k, hk, hg⟩ := List.mem_map.mp h
  obtain ⟨t, ht, hkt⟩ := List.mem_map.mp (mem_uniqueKeys.mp hk)
  exact ⟨t, ht, by rw [hkt, ← hg]⟩

theorem aggTrend_mem_spec (l : List Transaction) (g : TrendGroup)
    (h : g ∈ aggTrend l) :
    g.total = sumAmounts (l.filter fun t => trendKey t == g._id) ∧
    g.count = (l.filter fun t => trendKey t == g._id).length := by
  rw [aggTrend] at h
  obtain ⟨k, hk, hg⟩ := List.mem_map.mp h
  subst hg
  exact ⟨rfl, rfl⟩

/-- C9: the monthly trend pipeline with `months = N` (defaulting to 12 when
the parameter is absent) emits only groups witnessed by records owned by the
user and dated on or after `now` minus N months, grouped by (year, month,
type) with per-group sum and count, sorted ascending by (year, month,
type). -/
theorem C9_monthly_trends_ok (store : List Transaction) (uid : String)
    (now : DateT) (months : Option Nat) :
    ∃ out, getMonthlyTrends store uid now months = .ok out ∧
      (months = none → out = getMonthlyTrendsAgg store uid now 12) ∧
      out.Pairwise (fun a b => trendLeB a b = true) ∧
      (∀ g ∈ out, ∃ t ∈ store, t.user = uid ∧
        DateT.leB (jsSubMonths now (months.getD 12)) t.date = true ∧
        trendKey t = g._id) ∧
      (∀ g ∈ out,
        g.total = sumAmounts ((store.filter fun t =>
          t.user == uid &&
            DateT.leB (jsSubMonths now (months.getD 12)) t.date).filter
          fun t => trendKey t == g._id) ∧
        g.count = ((store.filter fun t =>
          t.user == uid &&
            DateT.leB (jsSubMonths now (months.getD 12)) t.date).filter
          fun t => trendKey t == g._id).length) := by
  refine ⟨getMonthlyTrendsAgg store uid now (months.getD 12), rfl, ?_, ?_, ?_, ?_⟩
  · intro h
    rw [h]
    rfl
  · exact List.sorted_insertionSort (fun a b => trendLeB a b = true) _
  · intro g hg
    have hg2 := (List.mem_insertionSort _).mp hg
    obtain ⟨t, ht, hkt⟩ := mem_aggTrend_exists _ _ hg2
    have hmem := List.mem_filter.mp ht
    have hcond := hmem.2
    simp only [Bool.and_eq_true, beq_iff_eq] at hcond
    exact ⟨t, hmem.1, hcond.1, hcond.2, hkt⟩
  · intro g hg
    exact aggTrend_mem_spec _ _ ((List.mem_insertionSort _).mp hg)

/-- C9 witness: the trend pipeline at a concrete store, a fixed `now`, and an
absent `months` parameter (so N defaults to 12). -/
theorem C9_monthly_trends_ok_witness :
    ∃ out, getMonthlyTrends
      [{ _id := "111111111111111111111111", user := "aaaaaaaaaaaaaaaaaaaaaaaa",
         type := "expense", amount := 50, category := "Food",
         date := ⟨2025, 9, 1⟩ },
       { _id := "222222222222222222222222", user := "aaaaaaaaaaaaaaaaaaaaaaaa",
         type := "income", amount := 1000, category := "Salary",
         date := ⟨2020, 1, 1⟩ }]
      "aaaaaaaaaaaaaaaaaaaaaaaa" ⟨2025, 10, 12⟩ none = .ok out ∧
      out.Pairwise (fun a b => trendLeB a b = true) ∧
      (∀ g ∈ out, ∃ t ∈ ([{ _id := "111111111111111111111111",
                            user := "aaaaaaaaaaaaaaaaaaaaaaaa", type := "expense",
                            amount := 50, category := "Food",
                            date := ⟨2025, 9, 1⟩ },
                          { _id := "222222222222222222222222",
                            user := "aaaaaaaaaaaaaaaaaaaaaaaa", type := "income",
                            amount := 1000, category := "Salary",
                            date := ⟨2020, 1, 1⟩ }] : List Transaction),
        t.user = "aaaaaaaaaaaaaaaaaaaaaaaa" ∧
        DateT.leB (jsSubMonths ⟨2025, 10, 12⟩ 12) t.date = true ∧
        trendKey t = g._id) :=
  match C9_monthly_trends_ok
    [{ _id := "111111111111111111111111", user := "aaaaaaaaaaaaaaaaaaaaaaaa",
       type := "expense", amount := 50, category := "Food",
       date := ⟨2025, 9, 1⟩ },
     { _id := "222222222222222222222222", user := "aaaaaaaaaaaaaaaaaaaaaaaa",
       type := "income", amount := 1000, category := "Salary",
       date := ⟨2020, 1, 1⟩ }]
    "aaaaaaaaaaaaaaaaaaaaaaaa" ⟨2025, 10, 12⟩ none with
  | ⟨out, h1, _, h3, h4, _⟩ => ⟨out, h1, h3, h4⟩

theorem getTransactions_ok (store : List Transaction) (uid : String)
    (p : ListParams) (hbad : badDateParam p = false) :
    getTransactions store uid p = .ok
      (((sortedMatches store uid p).drop ((p.page - 1) * p.limit)).take p.limit,
       { currentPage := p.page
         totalPages := ceilDiv (sortedMatches store uid p).length p.limit
         totalItems := (sortedMatches store uid p).length
         itemsPerPage := p.limit
         hasNextPage :=
           decide (p.page < ceilDiv (sortedMatches store uid p).length p.limit)
         hasPrevPage := decide (1 < p.page) }) := by
  simp [getTransactions, hbad]

theorem le_ceilDiv_mul (t k : Nat) (hk : 0 < k) : t ≤ ceilDiv t k * k := by
  rcases Nat.eq_zero_or_pos t with ht | _
  · simp [ht]
  · rw [ceilDiv]
    have h1 : (t + k - 1) / k * k + (t + k - 1) % k = t + k - 1 :=
      Nat.div_add_mod' _ _
    have h2 : (t + k - 1) % k < k := Nat.mod_lt _ hk
    generalize hA : (t + k - 1) / k * k = A at h1 ⊢
    generalize hB : (t + k - 1) % k = B at h1 h2
    omega

theorem lt_ceilDiv_iff (t k n : Nat) (hk : 0 < k) :
    n < ceilDiv t k ↔ n * k < t := by
  rw [ceilDiv, Nat.lt_iff_add_one_le, Nat.le_div_iff_mul_le hk]
  have hmul : (n + 1) * k = n * k + k := by ring
  rw [hmul]
  generalize n * k = A
  omega

theorem flatten_pages {α : Type} (L : List α) (k m : Nat)
    (hL : L.length ≤ m * k) :
    ((List.range m).map fun i => (L.drop (i * k)).take k).flatten = L := by
  have main : ∀ mm : Nat,
      ((List.range mm).map fun i => (L.drop (i * k)).take k).flatten =
        L.take (mm * k) := by
    intro mm
    induction mm with
    | zero => simp
    | succ n ih =>
      rw [List.range_succ, List.map_append, List.flatten_append, ih]
      simp only [List.map_cons, List.map_nil, List.flatten_cons,
        List.flatten_nil, List.append_nil]
      rw [Nat.succ_mul, List.take_add]
  rw [main m, List.take_of_length_le hL]

theorem slice_append {α : Type} (L : List α) (a k : Nat) :
    (L.drop a).take k ++ (L.drop (a + k)).take k = (L.drop a).take (k + k) := by
  rw [List.take_add, List.drop_drop]

/-- C4: for every predicate, page number ≥ 1 and positive page size (and
well-formed dates), the paginated fetch returns the slice of the single
sorted matching sequence at offset (page−1)·pageSize, of at most pageSize
records; consecutive pages are adjacent disjoint slices, the concatenation of
all pages is exactly the full sorted match set (no duplicates, no omissions),
the page count is the ceiling of total/pageSize, the next-page flag is true
exactly when the next page holds a record, and the previous-page flag is true
exactly when a preceding page number exists. -/
theorem C4_pagination_ok (store : List Transaction) (uid : String)
    (p : ListParams) (hk : 0 < p.limit) (hn : 1 ≤ p.page)
    (hbad : badDateParam p = false) :
    ∃ pg : Pagination,
      getTransactions store uid p = .ok
        (((sortedMatches store uid p).drop ((p.page - 1) * p.limit)).take
          p.limit, pg) ∧
      pg.currentPage = p.page ∧
      pg.itemsPerPage = p.limit ∧
      pg.totalItems = (sortedMatches store uid p).length ∧
      pg.totalPages = ceilDiv pg.totalItems p.limit ∧
      pg.totalItems ≤ pg.totalPages * p.limit ∧
      (pg.totalPages = 0 ∨ (pg.totalPages - 1) * p.limit < pg.totalItems) ∧
      ((List.range pg.totalPages).map fun i =>
        ((sortedMatches store uid p).drop (i * p.limit)).take p.limit).flatten
        = sortedMatches store uid p ∧
      ((sortedMatches store uid p).drop ((p.page - 1) * p.limit)).take p.limit
          ++ ((sortedMatches store uid p).drop (p.page * p.limit)).take p.limit
        = ((sortedMatches store uid p).drop ((p.page - 1) * p.limit)).take
            (p.limit + p.limit) ∧
      (pg.hasNextPage = true ↔
        ((sortedMatches store uid p).drop (p.page * p.limit)).take p.limit
          ≠ []) ∧
      (pg.hasPrevPage = true ↔ 1 ≤ p.page - 1) := by
  refine ⟨{ currentPage := p.page
            totalPages := ceilDiv (sortedMatches store uid p).length p.limit
            totalItems := (sortedMatches store uid p).length
            itemsPerPage := p.limit
            hasNextPage := decide (p.page <
              ceilDiv (sortedMatches store uid p).length p.limit)
            hasPrevPage := decide (1 < p.page) },
    getTransactions_ok store uid p hbad, rfl, rfl, rfl, rfl,
    ?_, ?_, ?_, ?_, ?_, ?_⟩
  · exact le_ceilDiv_mul _ _ hk
  · rcases Nat.eq_zero_or_pos (ceilDiv (sortedMatches store uid p).length
      p.limit) with h0 | h0
    · exact Or.inl h0
    · refine Or.inr ?_
      show (ceilDiv (sortedMatches store uid p).length p.limit - 1) * p.limit <
        (sortedMatches store uid p).length
      exact (lt_ceilDiv_iff _ _ _ hk).mp (by omega)
  · exact flatten_pages _ _ _ (le_ceilDiv_mul _ _ hk)
  · have hidx : (p.page - 1) * p.limit + p.limit = p.page * p.limit := by
      have h2 : p.page - 1 + 1 = p.page := Nat.sub_add_cancel hn
      calc (p.page - 1) * p.limit + p.limit
          = (p.page - 1 + 1) * p.limit := by rw [Nat.succ_mul]
        _ = p.page * p.limit := by rw [h2]
    rw [← hidx]
    exact slice_append _ _ _
  · show decide (p.page <
        ceilDiv (sortedMatches store uid p).length p.limit) = true ↔
      ((sortedMatches store uid p).drop (p.page * p.limit)).take p.limit ≠ []
    simp only [decide_eq_true_eq]
    rw [lt_ceilDiv_iff _ _ _ hk, Ne, List.take_eq_nil_iff,
      List.drop_eq_nil_iff]
    generalize p.page * p.limit = A
    omega
  · show decide (1 < p.page) = true ↔ 1 ≤ p.page - 1
    simp only [decide_eq_true_eq]
    omega

/-- C4 witness: a concrete three-record match set at page 2 of size 2 — the
slice, the ceiling page count, the page concatenation and both flags, with
all hypotheses discharged. -/
theorem C4_pagination_ok_witness :
    (0 < 2 ∧ 1 ≤ 2 ∧
      badDateParam { page := 2, limit := 2 } = false) ∧
    ∃ pg : Pagination,
      getTransactions
        [{ _id := "111111111111111111111111", user := "aaaaaaaaaaaaaaaaaaaaaaaa",
           type := "expense", amount := 50, category := "Food",
           date := ⟨2024, 1, 5⟩ },
         { _id := "222222222222222222222222", user := "aaaaaaaaaaaaaaaaaaaaaaaa",
           type := "income", amount := 1000, category := "Salary",
           date := ⟨2024, 1, 10⟩ },
         { _id := "333333333333333333333333", user := "aaaaaaaaaaaaaaaaaaaaaaaa",
           type := "expense", amount := 30, category := "Transport",
           date := ⟨2024, 1, 6⟩ }]
        "aaaaaaaaaaaaaaaaaaaaaaaa" { page := 2, limit := 2 } = .ok
        (((sortedMatches
          [{ _id := "111111111111111111111111", user := "aaaaaaaaaaaaaaaaaaaaaaaa",
             type := "expense", amount := 50, category := "Food",
             date := ⟨2024, 1, 5⟩ },
           { _id := "222222222222222222222222", user := "aaaaaaaaaaaaaaaaaaaaaaaa",
             type := "income", amount := 1000, category := "Salary",
             date := ⟨2024, 1, 10⟩ },
           { _id := "333333333333333333333333", user := "aaaaaaaaaaaaaaaaaaaaaaaa",
             type := "expense", amount := 30, category := "Transport",
             date := ⟨2024, 1, 6⟩ }]
          "aaaaaaaaaaaaaaaaaaaaaaaa" { page := 2, limit := 2 }).drop
            ((2 - 1) * 2)).take 2, pg) ∧
      pg.totalPages = ceilDiv pg.totalItems 2 ∧
      pg.hasPrevPage = true :=
  ⟨⟨by decide, by decide, by decide⟩,
    match C4_pagination_ok
      [{ _id := "111111111111111111111111", user := "aaaaaaaaaaaaaaaaaaaaaaaa",
         type := "expense", amount := 50, category := "Food",
         date := ⟨2024, 1, 5⟩ },
       { _id := "222222222222222222222222", user := "aaaaaaaaaaaaaaaaaaaaaaaa",
         type := "income", amount := 1000, category := "Salary",
         date := ⟨2024, 1, 10⟩ },
       { _id := "333333333333333333333333", user := "aaaaaaaaaaaaaaaaaaaaaaaa",
         type := "expense", amount := 30, category := "Transport",
         date := ⟨2024, 1, 6⟩ }]
      "aaaaaaaaaaaaaaaaaaaaaaaa" { page := 2, limit := 2 }
      (by decide) (by decide) (by decide) with
    | ⟨pg, h1, _, _, h4, h5, _, _, _, _, _, h11⟩ =>
      ⟨pg, h1, by rw [h5, h4], h11.mpr (by decide)⟩⟩

theorem filter_owner_restrict (store : List Transaction) (uid : String)
    (q : Transaction → Bool) :
    ((store.filter fun t => t.user == uid).filter
      fun t => t.user == uid && q t) =
      store.filter fun t => t.user == uid && q t := by
  rw [List.filter_filter]
  apply List.filter_congr
  intro t _
  cases h : (t.user == uid) <;> simp [h]

/-- C1: every operation of the transaction layer is scoped to the requesting
user: the list returns only the user's documents; the single fetch returns
only the user's document; the three aggregation pipelines read nothing but the
user's documents (their output over the full store equals their output over
the user-owned sub-store); and no document of another user is ever removed or
modified by update, delete, or bulk delete — any pre-state document that does
not survive a mutation was owned by the requester.  The store invariant that
`_id` is unique (Mongo's primary key) is assumed. -/
theorem C1_user_isolation (store : List Transaction) (uid : String)
    (hids : (store.map fun t => t._id).Nodup) :
    (∀ (p : ListParams) (d : List Transaction) (pg : Pagination),
      getTransactions store uid p = .ok (d, pg) → ∀ t ∈ d, t.user = uid) ∧
    (∀ tid t, getTransaction store uid tid = .ok t → t.user = uid) ∧
    (∀ s e, getUserSummary store uid s e =
      getUserSummary (store.filter fun t => t.user == uid) uid s e) ∧
    (∀ ty s e, getCategoryBreakdownAgg store uid ty s e =
      getCategoryBreakdownAgg (store.filter fun t => t.user == uid) uid ty s e) ∧
    (∀ now m, getMonthlyTrendsAgg store uid now m =
      getMonthlyTrendsAgg (store.filter fun t => t.user == uid) uid now m) ∧
    (∀ tid body t, t ∈ store → t.user ≠ uid →
      t ∈ (updateTransaction store uid tid body).2) ∧
    (∀ tid t, t ∈ store → t.user ≠ uid →
      t ∈ (deleteTransaction store uid tid).2) ∧
    (∀ ids t, t ∈ store → t.user ≠ uid →
      t ∈ (bulkDeleteTransactions store uid ids).2) ∧
    (∀ tid body t, t ∈ store → t ∉ (updateTransaction store uid tid body).2 →
      t.user = uid) ∧
    (∀ tid t, t ∈ store → t ∉ (deleteTransaction store uid tid).2 →
      t.user = uid) ∧
    (∀ ids t, t ∈ store → t ∉ (bulkDeleteTransactions store uid ids).2 →
      t.user = uid) := by
  have hread : ∀ (p : ListParams) (d : List Transaction) (pg : Pagination),
      getTransactions store uid p = .ok (d, pg) → ∀ t ∈ d, t.user = uid := by
    intro p d pg hok t htd
    cases hbad : badDateParam p with
    | true => simp [getTransactions, hbad] at hok
    | false =>
      rw [getTransactions_ok store uid p hbad] at hok
      simp only [Resp.ok.injEq, Prod.mk.injEq] at hok
      rw [← hok.1] at htd
      have ht1 : t ∈ matchedDocs store uid p :=
        (List.mem_insertionSort _).mp
          (List.mem_of_mem_drop (List.mem_of_mem_take htd))
      have hq := (List.mem_filter.mp ht1).2
      simp only [matchesQuery, Bool.and_eq_true, beq_iff_eq] at hq
      exact hq.1.1.1.1
  have hone : ∀ tid t, getTransaction store uid tid = .ok t → t.user = uid := by
    intro tid t hok
    rw [getTransaction] at hok
    cases hfind : store.find? (fun t => t._id == tid && t.user == uid) with
    | none => rw [hfind] at hok; exact absurd hok (by simp)
    | some t0 =>
      rw [hfind] at hok
      simp only [Resp.ok.injEq] at hok
      have hp := List.find?_some hfind
      simp only [Bool.and_eq_true, beq_iff_eq] at hp
      rw [← hok]
      exact hp.2
  have hupd : ∀ tid body t, t ∈ store → t.user ≠ uid →
      t ∈ (updateTransaction store uid tid body).2 := by
    intro tid body t ht hne
    rw [updateTransaction]
    cases hfind : store.find? (fun t => t._id == tid && t.user == uid) with
    | none => exact ht
    | some t0 =>
      by_cases hv : validUpdate body = true
      · have ht0mem : t0 ∈ store := List.mem_of_find?_eq_some hfind
        have hp := List.find?_some hfind
        simp only [Bool.and_eq_true, beq_iff_eq] at hp
        have hnid : (t._id == tid) = false := by
          rw [beq_eq_false_iff_ne]
          intro hid
          have : t = t0 :=
            List.inj_on_of_nodup_map hids ht ht0mem (by rw [hid, hp.1])
          rw [this] at hne
          exact hne hp.2
        have hmap : t ∈ store.map fun x =>
            if x._id == tid then applyUpdate x body else x := by
          have := List.mem_map_of_mem
            (fun x => if x._id == tid then applyUpdate x body else x) ht
          simpa [hnid] using this
        simp only [hv, if_true]
        cases hfind2 : (store.map fun x =>
            if x._id == tid then applyUpdate x body else x).find?
            (fun x => x._id == tid) with
        | none => simpa [hfind2] using hmap
        | some t2 => simpa [hfind2] using hmap
      · simp only [hv, if_false]
        exact ht
  have hdel : ∀ tid t, t ∈ store → t.user ≠ uid →
      t ∈ (deleteTransaction store uid tid).2 := by
    intro tid t ht hne
    rw [deleteTransaction]
    cases hfind : store.find? (fun t => t._id == tid && t.user == uid) with
    | none => exact ht
    | some t0 =>
      have ht0mem : t0 ∈ store := List.mem_of_find?_eq_some hfind
      have hp := List.find?_some hfind
      simp only [Bool.and_eq_true, beq_iff_eq] at hp
      have hnid : (t._id == tid) = false := by
        rw [beq_eq_false_iff_ne]
        intro hid
        have : t = t0 :=
          List.inj_on_of_nodup_map hids ht ht0mem (by rw [hid, hp.1])
        rw [this] at hne
        exact hne hp.2
      exact List.mem_filter.mpr ⟨ht, by simp [hnid]⟩
  have hbulk : ∀ ids t, t ∈ store → t.user ≠ uid →
      t ∈ (bulkDeleteTransactions store uid ids).2 := by
    intro ids t ht hne
    rw [bulkDeleteTransactions]
    by_cases hemp : ids.isEmpty = true
    · simp only [hemp, if_true]
      exact ht
    · simp only [hemp, if_false]
      by_cases hval : ((ids.filter isValidObjectId).length != ids.length) = true
      · simp only [hval, if_true]
        exact ht
      · simp only [hval, if_false]
        have hu : (t.user == uid) = false := beq_eq_false_iff_ne.mpr hne
        exact List.mem_filter.mpr ⟨ht, by simp [hu]⟩
  refine ⟨hread, hone, ?_, ?_, ?_, hupd, hdel, hbulk, ?_, ?_, ?_⟩
  · intro s e
    rw [getUserSummary, getUserSummary,
      filter_owner_restrict store uid (dateRangeFilter s e)]
  · intro ty s e
    rw [getCategoryBreakdownAgg, getCategoryBreakdownAgg]
    have hassoc : ∀ l : List Transaction,
        (l.filter fun t => t.user == uid && t.type == ty &&
          dateRangeFilter s e t) =
        l.filter fun t => t.user == uid &&
          (t.type == ty && dateRangeFilter s e t) := by
      intro l
      apply List.filter_congr
      intro t _
      rw [Bool.and_assoc]
    rw [hassoc, hassoc,
      filter_owner_restrict store uid
        (fun t => t.type == ty && dateRangeFilter s e t)]
  · intro now m
    rw [getMonthlyTrendsAgg, getMonthlyTrendsAgg,
      filter_owner_restrict store uid
        (fun t => DateT.leB (jsSubMonths now m) t.date)]
  · intro tid body t ht hnot
    by_contra hne
    exact hnot (hupd tid body t ht hne)
  · intro tid t ht hnot
    by_contra hne
    exact hnot (hdel tid t ht hne)
  · intro ids t ht hnot
    by_contra hne
    exact hnot (hbulk ids t ht hne)

/-- C1 witness: a concrete store holding one document of user A and one of
user B (distinct ids): A's single fetch only ever yields documents owned by A,
and B's documents survive A's update and bulk-delete attempts untouched. -/
theorem C1_user_isolation_witness :
    (([{ _id := "111111111111111111111111", user := "aaaaaaaaaaaaaaaaaaaaaaaa",
         type := "expense", amount := 50, category := "Food",
         date := ⟨2024, 1, 5⟩ },
       { _id := "222222222222222222222222", user := "bbbbbbbbbbbbbbbbbbbbbbbb",
         type := "income", amount := 1000, category := "Salary",
         date := ⟨2024, 1, 10⟩ }] : List Transaction).map
      (fun t => t._id)).Nodup ∧
    (∀ tid t, getTransaction
      [{ _id := "111111111111111111111111", user := "aaaaaaaaaaaaaaaaaaaaaaaa",
         type := "expense", amount := 50, category := "Food",
         date := ⟨2024, 1, 5⟩ },
       { _id := "222222222222222222222222", user := "bbbbbbbbbbbbbbbbbbbbbbbb",
         type := "income", amount := 1000, category := "Salary",
         date := ⟨2024, 1, 10⟩ }]
      "aaaaaaaaaaaaaaaaaaaaaaaa" tid = .ok t →
      t.user = "aaaaaaaaaaaaaaaaaaaaaaaa") ∧
    (∀ tid body t,
      t ∈ ([{ _id := "111111111111111111111111",
              user := "aaaaaaaaaaaaaaaaaaaaaaaa", type := "expense",
              amount := 50, category := "Food", date := ⟨2024, 1, 5⟩ },
            { _id := "222222222222222222222222",
              user := "bbbbbbbbbbbbbbbbbbbbbbbb", type := "income",
              amount := 1000, category := "Salary",
              date := ⟨2024, 1, 10⟩ }] : List Transaction) →
      t.user ≠ "aaaaaaaaaaaaaaaaaaaaaaaa" →
      t ∈ (updateTransaction
        [{ _id := "111111111111111111111111", user := "aaaaaaaaaaaaaaaaaaaaaaaa",
           type := "expense", amount := 50, category := "Food",
           date := ⟨2024, 1, 5⟩ },
         { _id := "222222222222222222222222", user := "bbbbbbbbbbbbbbbbbbbbbbbb",
           type := "income", amount := 1000, category := "Salary",
           date := ⟨2024, 1, 10⟩ }]
        "aaaaaaaaaaaaaaaaaaaaaaaa" tid body).2) ∧
    (∀ ids t,
      t ∈ ([{ _id := "111111111111111111111111",
              user := "aaaaaaaaaaaaaaaaaaaaaaaa", type := "expense",
              amount := 50, category := "Food", date := ⟨2024, 1, 5⟩ },
            { _id := "222222222222222222222222",
              user := "bbbbbbbbbbbbbbbbbbbbbbbb", type := "income",
              amount := 1000, category := "Salary",
              date := ⟨2024, 1, 10⟩ }] : List Transaction) →
      t.user ≠ "aaaaaaaaaaaaaaaaaaaaaaaa" →
      t ∈ (bulkDeleteTransactions
        [{ _id := "111111111111111111111111", user := "aaaaaaaaaaaaaaaaaaaaaaaa",
           type := "expense", amount := 50, category := "Food",
           date := ⟨2024, 1, 5⟩ },
         { _id := "222222222222222222222222", user := "bbbbbbbbbbbbbbbbbbbbbbbb",
           type := "income", amount := 1000, category := "Salary",
           date := ⟨2024, 1, 10⟩ }]
        "aaaaaaaaaaaaaaaaaaaaaaaa" ids).2) :=
  ⟨by decide,
    (C1_user_isolation
      [{ _id := "111111111111111111111111", user := "aaaaaaaaaaaaaaaaaaaaaaaa",
         type := "expense", amount := 50, category := "Food",
         date := ⟨2024, 1, 5⟩ },
       { _id := "222222222222222222222222", user := "bbbbbbbbbbbbbbbbbbbbbbbb",
         type := "income", amount := 1000, category := "Salary",
         date := ⟨2024, 1, 10⟩ }]
      "aaaaaaaaaaaaaaaaaaaaaaaa" (by decide)).2.1,
    (C1_user_isolation
      [{ _id := "111111111111111111111111", user := "aaaaaaaaaaaaaaaaaaaaaaaa",
         type := "expense", amount := 50, category := "Food",
         date := ⟨2024, 1, 5⟩ },
       { _id := "222222222222222222222222", user := "bbbbbbbbbbbbbbbbbbbbbbbb",
         type := "income", amount := 1000, category := "Salary",
         date := ⟨2024, 1, 10⟩ }]
      "aaaaaaaaaaaaaaaaaaaaaaaa" (by decide)).2.2.2.2.2.1,
    (C1_user_isolation
      [{ _id := "111111111111111111111111", user := "aaaaaaaaaaaaaaaaaaaaaaaa",
         type := "expense", amount := 50, category := "Food",
         date := ⟨2024, 1, 5⟩ },
       { _id := "222222222222222222222222", user := "bbbbbbbbbbbbbbbbbbbbbbbb",
         type := "income", amount := 1000, category := "Salary",
         date := ⟨2024, 1, 10⟩ }]
      "aaaaaaaaaaaaaaaaaaaaaaaa" (by decide)).2.2.2.2.2.2.2.1⟩

theorem matchHere_alt (a b : Regex) (cs : List Nat) :
    matchHere (.alt a b) cs = (matchHere a cs || matchHere b cs) := by
  induction cs generalizing a b with
  | nil => rfl
  | cons c t ih =>
    rw [Bool.eq_iff_iff]
    simp only [matchHere, Regex.nullable, Regex.deriv, ih, Bool.or_eq_true]
    tauto

theorem matchHere_failseq (r : Regex) (cs : List Nat) :
    matchHere (.seq .fail r) cs = false := by
  induction cs with
  | nil => rfl
  | cons c t ih => simp [matchHere, Regex.nullable, Regex.deriv, ih]

theorem matchHere_epsseq (r : Regex) (cs : List Nat) :
    matchHere (.seq .emptyStr r) cs = matchHere r cs := by
  cases cs with
  | nil => simp [matchHere, Regex.nullable]
  | cons c t =>
    simp [matchHere, Regex.nullable, Regex.deriv, matchHere_alt,
      matchHere_failseq]

theorem nullable_lit (w : List Nat) : (litRegex w).nullable = w.isEmpty := by
  cases w <;> rfl

theorem matchHere_lit (w : List Nat) : ∀ cs : List Nat,
    matchHere (litRegex w) cs = w.isPrefixOf cs := by
  induction w with
  | nil => intro cs; cases cs <;> simp [matchHere, litRegex, Regex.nullable,
      List.isPrefixOf]
  | cons c w' ih =>
    intro cs
    cases cs with
    | nil => simp [matchHere, litRegex, Regex.nullable, List.isPrefixOf]
    | cons d t =>
      show matchHere (.seq (.char c) (litRegex w')) (d :: t) = _
      by_cases hcd : c = d
      · simp [matchHere, Regex.nullable, Regex.deriv, hcd, matchHere_epsseq,
          ih, List.isPrefixOf]
      · simp [matchHere, Regex.nullable, Regex.deriv, hcd, matchHere_failseq,
          List.isPrefixOf]

theorem searchRegex_lit (w : List Nat) : ∀ cs : List Nat,
    searchRegex (litRegex w) cs = hasInfix w cs := by
  intro cs
  induction cs with
  | nil => simp [searchRegex, hasInfix, nullable_lit]
  | cons c t ih => simp [searchRegex, hasInfix, matchHere_lit, ih]

theorem listToSeq_map_char (w : List Nat) :
    listToSeq (w.map Regex.char) = litRegex w := by
  induction w with
  | nil => rfl
  | cons c t ih => simp [listToSeq, litRegex] at ih ⊢; exact ih

theorem parseLoop_plain (cs : List Char) : ∀ (atoms : List Regex)
    (l : Option Regex), (∀ c ∈ cs, plainChar c = true) →
    parseLoop cs atoms l [] 0 =
      some (listToSeq ((pushLast atoms l).reverse ++
        cs.map fun c => Regex.char (lowerCode c.toNat))) := by
  induction cs with
  | nil => intro atoms l _; simp [parseLoop]
  | cons c t ih =>
    intro atoms l h
    have hc := h c (by simp)
    simp only [plainChar, decide_eq_true_eq] at hc
    obtain ⟨h1, h2, h3, h4, h5, h6, _⟩ := hc
    simp only [parseLoop, if_neg h1, if_neg h2, if_neg h3, if_neg h4,
      if_neg h5, if_neg h6]
    rw [ih _ _ (fun x hx => h x (List.mem_cons_of_mem _ hx))]
    simp [pushLast, List.reverse_cons, List.append_assoc]

theorem parsePattern_plain (s : String)
    (h : s.toList.all plainChar = true) :
    parsePattern s = some (litRegex (lowerCodes s)) := by
  rw [parsePattern, parseLoop_plain s.toList [] none
    (fun c hc => List.all_eq_true.mp h c hc)]
  simp only [pushLast, List.reverse_nil, List.nil_append]
  rw [lowerCodes, ← listToSeq_map_char, List.map_map]
  rfl

theorem regexMatchCI_plain (hay pat : String)
    (h : pat.toList.all plainChar = true) :
    regexMatchCI hay pat = containsCI hay pat := by
  rw [regexMatchCI, parsePattern_plain pat h]
  simp only [searchRegex_lit]
  rfl

/-- C10 counterexample: the search string is passed to the store as a regular
expression, not a literal.  Searching "a.c" returns the user's transaction
whose description is "abc", although "a.c" occurs case-insensitively as a
substring of none of description, category or notes — the regex dot matched
the "b". -/
theorem C10_regex_metachar_counterexample :
    getTransactions
      [{ _id := "111111111111111111111111", user := "aaaaaaaaaaaaaaaaaaaaaaaa",
         type := "expense", amount := 50, category := "Zzz",
         description := some "abc", date := ⟨2024, 1, 5⟩ }]
      "aaaaaaaaaaaaaaaaaaaaaaaa" { search := some "a.c" } = .ok
      ([{ _id := "111111111111111111111111", user := "aaaaaaaaaaaaaaaaaaaaaaaa",
          type := "expense", amount := 50, category := "Zzz",
          description := some "abc", date := ⟨2024, 1, 5⟩ }],
       { currentPage := 1, totalPages := 1, totalItems := 1,
         itemsPerPage := 10, hasNextPage := false, hasPrevPage := false }) ∧
    containsCI "abc" "a.c" = false ∧
    containsCI "Zzz" "a.c" = false ∧
    optMatch (none : Option String) "a.c" = false ∧
    regexMatchCI "abc" "a.c" = true := by
  refine ⟨by decide, by decide, by decide, by decide, by decide⟩

/-- C10 amended: the free-text search string is interpreted by the store as a
case-insensitive regular expression, not as a literal.  With only the search
filter supplied and a pattern inside the modelled universe, the list operation
returns exactly the requesting user's transactions whose description, category
or notes the regex matches (logical OR, unanchored); an empty or absent search
string imposes no constraint beyond ownership; and for search strings made
only of plain characters (no metacharacters) regex matching coincides exactly
with the spec's case-insensitive substring containment.  An invalid pattern
makes the store reject the query — surfacing as the generic 500 — a path
outside the modelled pattern universe (see `parsePattern`). -/
theorem C10_search_regex_amended (store : List Transaction) (uid : String)
    (p : ListParams) (htype : p.type = none) (hcat : p.category = none)
    (hsd : p.startDate = none) (hed : p.endDate = none)
    (hpage : p.page = 1) (hlim : store.length ≤ p.limit) :
    (∀ s, p.search = some s → s ≠ "" → (parsePattern s).isSome = true →
      ∀ t : Transaction,
        (∃ d pg, getTransactions store uid p = .ok (d, pg) ∧ t ∈ d) ↔
          (t ∈ store ∧ t.user = uid ∧
            (optMatch t.description s = true ∨
              regexMatchCI t.category s = true ∨
              optMatch t.notes s = true))) ∧
    (p.search = none ∨ p.search = some "" →
      ∀ t : Transaction,
        (∃ d pg, getTransactions store uid p = .ok (d, pg) ∧ t ∈ d) ↔
          (t ∈ store ∧ t.user = uid)) ∧
    (∀ s hay : String, s.toList.all plainChar = true →
      regexMatchCI hay s = containsCI hay s) := by
  have hbad : badDateParam p = false := by
    simp [badDateParam, hsd, hed, truthy]
  have hlen : (sortedMatches store uid p).length ≤ p.limit := by
    rw [sortedMatches, List.length_insertionSort]
    exact le_trans (List.length_filter_le _ _) hlim
  have hslice : ((sortedMatches store uid p).drop ((p.page - 1) * p.limit)).take
      p.limit = sortedMatches store uid p := by
    rw [hpage]
    simp [List.take_of_length_le hlen]
  have hmem : ∀ t : Transaction,
      (∃ d pg, getTransactions store uid p = .ok (d, pg) ∧ t ∈ d) ↔
        (t ∈ store ∧ matchesQuery uid p t = true) := by
    intro t
    constructor
    · rintro ⟨d, pg, hok, htd⟩
      rw [getTransactions_ok store uid p hbad] at hok
      simp only [Resp.ok.injEq, Prod.mk.injEq] at hok
      rw [← hok.1] at htd
      have ht1 : t ∈ sortedMatches store uid p :=
        List.mem_of_mem_drop (List.mem_of_mem_take htd)
      have ht2 : t ∈ matchedDocs store uid p :=
        (List.mem_insertionSort _).mp ht1
      exact ⟨(List.mem_filter.mp ht2).1, (List.mem_filter.mp ht2).2⟩
    · rintro ⟨hts, htq⟩
      refine ⟨_, _, getTransactions_ok store uid p hbad, ?_⟩
      rw [hslice, sortedMatches]
      exact (List.mem_insertionSort _).mpr (List.mem_filter.mpr ⟨hts, htq⟩)
  refine ⟨?_, ?_, fun s hay h => regexMatchCI_plain hay s h⟩
  · intro s hs hne _ t
    rw [hmem t]
    have hq : matchesQuery uid p t =
        (t.user == uid &&
          (optMatch t.description s || regexMatchCI t.category s ||
            optMatch t.notes s)) := by
      simp [matchesQuery, typeClause, categoryClause, dateClause, searchClause,
        truthy, htype, hcat, hsd, hed, hs, hne]
    rw [hq]
    simp [Bool.and_eq_true, Bool.or_eq_true, or_assoc]
  · intro hs t
    rw [hmem t]
    have hq : matchesQuery uid p t = (t.user == uid) := by
      rcases hs with h | h <;>
        simp [matchesQuery, typeClause, categoryClause, dateClause,
          searchClause, truthy, htype, hcat, hsd, hed, h]
    rw [hq]
    simp

/-- C10 witness: a search for the plain pattern "food" against a store holding
a case-insensitively matching description ("FOOD mart") and a non-matching
transaction, with page 1 and a page size covering the store; the pattern
parses, and on this metacharacter-free string regex matching coincides with
substring containment. -/
theorem C10_search_regex_amended_witness :
    ((some "food" : Option String) = some "food" ∧ "food" ≠ "" ∧
      (parsePattern "food").isSome = true ∧
      "food".toList.all plainChar = true ∧
      ([{ _id := "111111111111111111111111", user := "aaaaaaaaaaaaaaaaaaaaaaaa",
          type := "expense", amount := 50, category := "Groceries",
          description := some "FOOD mart", date := ⟨2024, 1, 5⟩ },
        { _id := "222222222222222222222222", user := "aaaaaaaaaaaaaaaaaaaaaaaa",
          type := "expense", amount := 30, category := "Transport",
          date := ⟨2024, 1, 6⟩ }] : List Transaction).length ≤ 10) ∧
    (∀ t : Transaction,
      (∃ d pg, getTransactions
        [{ _id := "111111111111111111111111", user := "aaaaaaaaaaaaaaaaaaaaaaaa",
           type := "expense", amount := 50, category := "Groceries",
           description := some "FOOD mart", date := ⟨2024, 1, 5⟩ },
         { _id := "222222222222222222222222", user := "aaaaaaaaaaaaaaaaaaaaaaaa",
           type := "expense", amount := 30, category := "Transport",
           date := ⟨2024, 1, 6⟩ }]
        "aaaaaaaaaaaaaaaaaaaaaaaa" { search := some "food" } = .ok (d, pg) ∧
        t ∈ d) ↔
        (t ∈ ([{ _id := "111111111111111111111111",
                 user := "aaaaaaaaaaaaaaaaaaaaaaaa", type := "expense",
                 amount := 50, category := "Groceries",
                 description := some "FOOD mart", date := ⟨2024, 1, 5⟩ },
               { _id := "222222222222222222222222",
                 user := "aaaaaaaaaaaaaaaaaaaaaaaa", type := "expense",
                 amount := 30, category := "Transport",
                 date := ⟨2024, 1, 6⟩ }] : List Transaction) ∧
          t.user = "aaaaaaaaaaaaaaaaaaaaaaaa" ∧
          (optMatch t.description "food" = true ∨
            regexMatchCI t.category "food" = true ∨
            optMatch t.notes "food" = true))) ∧
    regexMatchCI "FOOD mart" "food" = containsCI "FOOD mart" "food" ∧
    regexMatchCI "FOOD mart" "food" = true ∧
    containsCI "Transport" "food" = false := by
  refine ⟨⟨rfl, by decide, by decide, by decide, by decide⟩, ?_, ?_, by decide,
    by decide⟩
  · intro t
    exact (C10_search_regex_amended
      [{ _id := "111111111111111111111111", user := "aaaaaaaaaaaaaaaaaaaaaaaa",
         type := "expense", amount := 50, category := "Groceries",
         description := some "FOOD mart", date := ⟨2024, 1, 5⟩ },
       { _id := "222222222222222222222222", user := "aaaaaaaaaaaaaaaaaaaaaaaa",
         type := "expense", amount := 30, category := "Transport",
         date := ⟨2024, 1, 6⟩ }]
      "aaaaaaaaaaaaaaaaaaaaaaaa" { search := some "food" }
      rfl rfl rfl rfl rfl (by decide)).1 "food" rfl (by decide) (by decide) t
  · exact (C10_search_regex_amended
      [{ _id := "111111111111111111111111", user := "aaaaaaaaaaaaaaaaaaaaaaaa",
         type := "expense", amount := 50, category := "Groceries",
         description := some "FOOD mart", date := ⟨2024, 1, 5⟩ },
       { _id := "222222222222222222222222", user := "aaaaaaaaaaaaaaaaaaaaaaaa",
         type := "expense", amount := 30, category := "Transport",
         date := ⟨2024, 1, 6⟩ }]
      "aaaaaaaaaaaaaaaaaaaaaaaa" { search := some "food" }
      rfl rfl rfl rfl rfl (by decide)).2.2 "food" "FOOD mart" (by decide)
